import Mathlib

/-! Shallow embedding of `src/main.ts` of tailwind-theme-figma-variables.

JavaScript numbers are modelled as `JSNum`: `NaN`, an infinity, or a
rational value (IEEE doubles are idealised as exact rationals; none of
the verified claims depends on double rounding). Strings are Lean
strings; JS `Map`s and plain objects are association lists updated in
place, mirroring `Map.set` and object key assignment. Each regex scan is
modelled operationally: try a match at every position from left to
right, continuing after the end of a successful match. -/

/-- Character class `[0-9]` (regex `\d`). -/
def isDigitChar (c : Char) : Bool := 48 ≤ c.toNat && c.toNat ≤ 57

/-- Character class `[a-z]`. -/
def isLowerChar (c : Char) : Bool := 97 ≤ c.toNat && c.toNat ≤ 122

/-- Character class `[a-z0-9]`. -/
def isAlnumChar (c : Char) : Bool := isLowerChar c || isDigitChar c

/-- Character class `[a-z0-9-]` used by the color regex. -/
def isColorNameChar (c : Char) : Bool := isAlnumChar c || c == '-'

/-- Hex digits accepted by `parseInt(_, 16)` (both cases). -/
def isHexDigitChar (c : Char) : Bool :=
  isDigitChar c || (97 ≤ c.toNat && c.toNat ≤ 102) || (65 ≤ c.toNat && c.toNat ≤ 70)

/-- JavaScript whitespace (`\s`, also used by `String.prototype.trim`). -/
def isJsWhitespace (c : Char) : Bool :=
  let n := c.toNat
  n == 0x9 || n == 0xa || n == 0xb || n == 0xc || n == 0xd || n == 0x20 ||
  n == 0xa0 || n == 0x1680 || (0x2000 ≤ n && n ≤ 0x200a) ||
  n == 0x2028 || n == 0x2029 || n == 0x202f || n == 0x205f ||
  n == 0x3000 || n == 0xfeff

/-- A JavaScript number: NaN, a signed infinity, or a finite value. -/
inductive JSNum where
  | nan : JSNum
  | inf : JSNum
  | ninf : JSNum
  | val : ℚ → JSNum
deriving DecidableEq

/-- JavaScript multiplication on `JSNum`. -/
def JSNum.mul : JSNum → JSNum → JSNum
  | nan, _ => nan
  | _, nan => nan
  | inf, inf => inf
  | inf, ninf => ninf
  | ninf, inf => ninf
  | ninf, ninf => inf
  | inf, val q => if 0 < q then inf else if q < 0 then ninf else nan
  | val q, inf => if 0 < q then inf else if q < 0 then ninf else nan
  | ninf, val q => if 0 < q then ninf else if q < 0 then inf else nan
  | val q, ninf => if 0 < q then ninf else if q < 0 then inf else nan
  | val a, val b => val (a * b)

/-- JavaScript division on `JSNum` (division by zero gives a signed
infinity, `0/0` gives NaN; the sign of JS `-0` is not modelled). -/
def JSNum.div : JSNum → JSNum → JSNum
  | nan, _ => nan
  | _, nan => nan
  | inf, inf => nan
  | inf, ninf => nan
  | ninf, inf => nan
  | ninf, ninf => nan
  | inf, val q => if q < 0 then ninf else inf
  | ninf, val q => if q < 0 then inf else ninf
  | val _, inf => val 0
  | val _, ninf => val 0
  | val a, val b =>
    if b = 0 then (if a = 0 then nan else if 0 < a then inf else ninf)
    else val (a / b)

/-- Model of `Math.round`: round half toward positive infinity. -/
def jsMathRound : JSNum → JSNum
  | .nan => .nan
  | .inf => .inf
  | .ninf => .ninf
  | .val q => .val ((⌊q + 1/2⌋ : ℤ) : ℚ)

/-- The rounding idiom `Math.round(x * 1000) / 1000` used throughout
src/main.ts (lines 139-141 and 633). -/
def roundTo3 (x : JSNum) : JSNum :=
  (jsMathRound (x.mul (.val 1000))).div (.val 1000)

/-- Decimal digit characters to the natural number they denote. -/
def digitsToNat (ds : List Char) : ℕ := ds.foldl (fun a c => a * 10 + (c.toNat - 48)) 0

/-- Value of one hex digit as used by `parseInt(_, 16)`. -/
def hexDigitVal (c : Char) : ℕ :=
  if isDigitChar c then c.toNat - 48
  else if 97 ≤ c.toNat then c.toNat - 87
  else c.toNat - 55

/-- Hex digit characters to the natural number they denote. -/
def hexDigitsToNat (ds : List Char) : ℕ := ds.foldl (fun a c => a * 16 + hexDigitVal c) 0

/-- Read an optional sign; `true` means negative. -/
def readSign : List Char → Bool × List Char
  | '-' :: rest => (true, rest)
  | '+' :: rest => (false, rest)
  | l => (false, l)

/-- Model of `parseFloat`: skip whitespace, optional sign, then `Infinity` or
decimal digits with optional fraction and exponent; the longest valid
numeric prefix is parsed and trailing text ignored; `NaN` if there is no
digit at all. -/
def jsParseFloat (s : String) : JSNum :=
  let l0 := s.data.dropWhile isJsWhitespace
  let sign := readSign l0
  let neg := sign.1
  let l := sign.2
  if "Infinity".data.isPrefixOf l then (if neg then .ninf else .inf)
  else
    let intDigits := l.takeWhile isDigitChar
    let r1 := l.drop intDigits.length
    let fracDigits :=
      match r1 with
      | '.' :: rest => rest.takeWhile isDigitChar
      | _ => []
    let r2 :=
      match r1 with
      | '.' :: rest => rest.drop (rest.takeWhile isDigitChar).length
      | _ => r1
    if intDigits.isEmpty && fracDigits.isEmpty then .nan
    else
      let mantissa : ℚ := digitsToNat intDigits + digitsToNat fracDigits / 10 ^ fracDigits.length
      let e : ℤ :=
        match r2 with
        | c :: rest =>
          if c == 'e' || c == 'E' then
            let esign := readSign rest
            let eDigits := esign.2.takeWhile isDigitChar
            if eDigits.isEmpty then 0
            else if esign.1 then -(digitsToNat eDigits : ℤ) else (digitsToNat eDigits : ℤ)
          else 0
        | [] => 0
      let m := mantissa * (10 : ℚ) ^ e
      .val (if neg then -m else m)

/-- Model of `parseInt(_, 10)`: whitespace, sign, longest digit prefix, `NaN` if
there is none. -/
def jsParseInt10 (s : String) : JSNum :=
  let l0 := s.data.dropWhile isJsWhitespace
  let sign := readSign l0
  let ds := sign.2.takeWhile isDigitChar
  if ds.isEmpty then .nan
  else .val (if sign.1 then -(digitsToNat ds : ℚ) else (digitsToNat ds : ℚ))

/-- Model of `parseInt(_, 16)`: like base 10 but hex digits, allowing an optional
`0x`/`0X` marker after the sign. -/
def jsParseIntHex (s : String) : JSNum :=
  let l0 := s.data.dropWhile isJsWhitespace
  let sign := readSign l0
  let l1 := sign.2
  let l := if "0x".data.isPrefixOf l1 || "0X".data.isPrefixOf l1 then l1.drop 2 else l1
  let ds := l.takeWhile isHexDigitChar
  if ds.isEmpty then .nan
  else .val (if sign.1 then -(hexDigitsToNat ds : ℚ) else (hexDigitsToNat ds : ℚ))

/-- Drop leading JS whitespace. -/
def trimLeftChars (l : List Char) : List Char := l.dropWhile isJsWhitespace

/-- Drop trailing JS whitespace. -/
def trimRightChars (l : List Char) : List Char := (l.reverse.dropWhile isJsWhitespace).reverse

/-- Model of `String.prototype.trim`. -/
def jsTrim (s : String) : String := ⟨trimRightChars (trimLeftChars s.data)⟩

/-- Model of `Map.set` and JS object key assignment: replace the entry in place if
the key is present (keeping its position), otherwise append. -/
def mapSet {α : Type} : List (String × α) → String → α → List (String × α)
  | [], k, v => [(k, v)]
  | p :: rest, k, v => if p.1 = k then (k, v) :: rest else p :: mapSet rest k v

/-- Model of `Map.get` and JS object key lookup. -/
def mapGet {α : Type} : List (String × α) → String → Option α
  | [], _ => none
  | p :: rest, k => if p.1 = k then some p.2 else mapGet rest k

/-- A design token: `$type` together with `$value` (W3C Design Tokens
Format, src/main.ts 6-90). -/
inductive Token where
  | color : List JSNum → String → Token
  | number : JSNum → Token
  | str : String → Token
deriving DecidableEq

/-- The `$type` field of a token. -/
def Token.ttype : Token → String
  | .color _ _ => "color"
  | .number _ => "number"
  | .str _ => "string"

/-- One `regex.exec` loop: try a match at each position from left to
right; after a match continue after its end, after a failure advance one
character. The fuel equals the input length, which suffices because every
successful match consumes at least one character. -/
def scanAll {α : Type} (step : List Char → Option (α × List Char)) :
    ℕ → List Char → List α
  | 0, _ => []
  | _ + 1, [] => []
  | fuel + 1, c :: rest =>
    match step (c :: rest) with
    | some (a, rem) => a :: scanAll step fuel rem
    | none => scanAll step fuel rest

/-- All matches of a global regex over a string, in text order. -/
def scanMatches {α : Type} (step : List Char → Option (α × List Char)) (s : String) :
    List α :=
  scanAll step s.data.length s.data

/-- First match of a non-global regex. -/
def findFirstMatch {α : Type} (step : List Char → Option α) : ℕ → List Char → Option α
  | 0, _ => none
  | _ + 1, [] => none
  | fuel + 1, c :: rest =>
    match step (c :: rest) with
    | some a => some a
    | none => findFirstMatch step fuel rest

/-- Match `\s*([^;]+);` directly after the colon of a declaration and
return the trimmed capture and the remainder after the `;`. The greedy
`\s*` and `[^;]+` match exactly when at least one character precedes the
next `;`, and the trimmed capture then equals the trimmed text before
that `;` (`[^;]` also matches newlines). -/
def matchValueAfterColon (l : List Char) : Option (String × List Char) :=
  let tval := l.takeWhile (fun c => c != ';')
  if tval.isEmpty then none
  else
    match l.drop tval.length with
    | ';' :: rem => some (jsTrim ⟨tval⟩, rem)
    | _ => none

/-- Match a declaration `LIT NAME: value;` at the current position, the
shape of all regexes `--lit([cls]+):\s*([^;]+);` in src/main.ts: NAME is
the maximal nonempty run of class characters (the character after the
run must be the colon, since `:` is not in any of the classes). -/
def matchLitDecl (lit : List Char) (cls : Char → Bool) (l : List Char) :
    Option ((String × String) × List Char) :=
  if lit.isPrefixOf l then
    let rest := l.drop lit.length
    let name := rest.takeWhile cls
    if name.isEmpty then none
    else
      match rest.drop name.length with
      | ':' :: rest2 =>
        (matchValueAfterColon rest2).map (fun p => (((⟨name⟩ : String), p.1), p.2))
      | _ => none
  else none

/-- Build a JS `Map` from scanned (name, value) matches via repeated
`Map.set` (later matches for the same name overwrite earlier ones). -/
def buildMap (l : List (String × String)) : List (String × String) :=
  l.foldl (fun m p => mapSet m p.1 p.2) []

/-- Matches of `--color-([a-z0-9-]+):\s*([^;]+);` in text order. -/
def colorMatches (cssContent : String) : List (String × String) :=
  scanMatches (matchLitDecl "--color-".data isColorNameChar) cssContent

/-- Model of `parseColorVariables` (src/main.ts 148-160). -/
def parseColorVariables (cssContent : String) : List (String × String) :=
  buildMap (colorMatches cssContent)

/-- Matches of `--radius-([a-z0-9]+):\s*([^;]+);` in text order. -/
def radiusMatches (cssContent : String) : List (String × String) :=
  scanMatches (matchLitDecl "--radius-".data isAlnumChar) cssContent

/-- Model of `parseRadiusVariables` (src/main.ts 263-275). -/
def parseRadiusVariables (cssContent : String) : List (String × String) :=
  buildMap (radiusMatches cssContent)

/-- Matches of `--container-([a-z0-9]+):\s*([^;]+);` in text order. -/
def containerMatches (cssContent : String) : List (String × String) :=
  scanMatches (matchLitDecl "--container-".data isAlnumChar) cssContent

/-- Model of `parseContainerVariables` (src/main.ts 345-357). -/
def parseContainerVariables (cssContent : String) : List (String × String) :=
  buildMap (scanMatches (matchLitDecl "--container-".data isAlnumChar) cssContent)

/-- Matches of `--breakpoint-([a-z0-9]+):\s*([^;]+);` in text order. -/
def breakpointMatches (cssContent : String) : List (String × String) :=
  scanMatches (matchLitDecl "--breakpoint-".data isAlnumChar) cssContent

/-- Model of `parseBreakpointVariables` (src/main.ts 388-400). -/
def parseBreakpointVariables (cssContent : String) : List (String × String) :=
  buildMap (scanMatches (matchLitDecl "--breakpoint-".data isAlnumChar) cssContent)

/-- Matches of `--text-([a-z0-9]+):\s*([^;]+);` in text order. -/
def textMatches (cssContent : String) : List (String × String) :=
  scanMatches (matchLitDecl "--text-".data isAlnumChar) cssContent

/-- Substring test (`String.prototype.includes`). -/
def listContainsSub (sub : List Char) : List Char → Bool
  | [] => sub.isEmpty
  | c :: rest => sub.isPrefixOf (c :: rest) || listContainsSub sub rest

/-- Model of `parseTextVariables` (src/main.ts 431-448), with the (dead, since the
name class cannot capture `-`) skip of names containing `--line-height`. -/
def parseTextVariables (cssContent : String) : List (String × String) :=
  (textMatches cssContent).foldl
    (fun m p => if listContainsSub "--line-height".data p.1.data then m else mapSet m p.1 p.2) []

/-- Matches of `--font-weight-([a-z]+):\s*([^;]+);` in text order. -/
def fontWeightMatches (cssContent : String) : List (String × String) :=
  scanMatches (matchLitDecl "--font-weight-".data isLowerChar) cssContent

/-- Model of `parseFontWeightVariables` (src/main.ts 479-491). -/
def parseFontWeightVariables (cssContent : String) : List (String × String) :=
  buildMap (scanMatches (matchLitDecl "--font-weight-".data isLowerChar) cssContent)

/-- Matches of `--tracking-([a-z]+):\s*([^;]+);` in text order. -/
def trackingMatches (cssContent : String) : List (String × String) :=
  scanMatches (matchLitDecl "--tracking-".data isLowerChar) cssContent

/-- Model of `parseTrackingVariables` (src/main.ts 520-532). -/
def parseTrackingVariables (cssContent : String) : List (String × String) :=
  buildMap (scanMatches (matchLitDecl "--tracking-".data isLowerChar) cssContent)

/-- Group 1 of the shadow regex
`--((?:inset-)?shadow|(?:drop|text)-shadow)-...`: the four family
literals start with distinct characters, so at a given position at most
one alternative can match and no backtracking across the alternation is
possible. -/
def shadowFamilyAt (l : List Char) : Option String :=
  if "inset-shadow".data.isPrefixOf l then some "inset-shadow"
  else if "shadow".data.isPrefixOf l then some "shadow"
  else if "drop-shadow".data.isPrefixOf l then some "drop-shadow"
  else if "text-shadow".data.isPrefixOf l then some "text-shadow"
  else none

/-- Match `--((?:inset-)?shadow|(?:drop|text)-shadow)-([a-z0-9]+):\s*([^;]+);`
(src/main.ts 309-310); the map key is `family-size`. -/
def matchShadowDecl (l : List Char) : Option ((String × String) × List Char) :=
  if "--".data.isPrefixOf l then
    let rest := l.drop 2
    match shadowFamilyAt rest with
    | none => none
    | some fam =>
      match rest.drop fam.length with
      | '-' :: rest2 =>
        let size := rest2.takeWhile isAlnumChar
        if size.isEmpty then none
        else
          match rest2.drop size.length with
          | ':' :: rest3 =>
            (matchValueAfterColon rest3).map
              (fun p => ((fam ++ "-" ++ (⟨size⟩ : String), p.1), p.2))
          | _ => none
      | _ => none
  else none

/-- Matches of the shadow regex in text order. -/
def shadowMatches (cssContent : String) : List (String × String) :=
  scanMatches matchShadowDecl cssContent

/-- Model of `parseShadowVariables` (src/main.ts 306-322). -/
def parseShadowVariables (cssContent : String) : List (String × String) :=
  buildMap (shadowMatches cssContent)

/-- Match `--text-([a-z0-9]+)--line-height:\s*([^;]+);` (src/main.ts 596). -/
def matchTextLineHeight (l : List Char) : Option ((String × String) × List Char) :=
  if "--text-".data.isPrefixOf l then
    let rest := l.drop 7
    let size := rest.takeWhile isAlnumChar
    if size.isEmpty then none
    else
      let rest2 := rest.drop size.length
      if "--line-height:".data.isPrefixOf rest2 then
        (matchValueAfterColon (rest2.drop 14)).map
          (fun p => (((⟨size⟩ : String), p.1), p.2))
      else none
  else none

/-- Matches of `--leading-([a-z]+):\s*([^;]+);` in text order. -/
def leadingMatches (cssContent : String) : List (String × String) :=
  scanMatches (matchLitDecl "--leading-".data isLowerChar) cssContent

/-- Matches of the `--text-*--line-height` regex in text order. -/
def textLineHeightMatches (cssContent : String) : List (String × String) :=
  scanMatches matchTextLineHeight cssContent

/-- Model of `parseLeadingVariables` (src/main.ts 591-615): both regex passes feed
one map, keys `leading-NAME` and `text-SIZE--line-height`. -/
def parseLeadingVariables (cssContent : String) : List (String × String) :=
  let m1 := (leadingMatches cssContent).foldl
    (fun m p => mapSet m ("leading-" ++ p.1) p.2) []
  (textLineHeightMatches cssContent).foldl
    (fun m p => mapSet m ("text-" ++ p.1 ++ "--line-height") p.2) m1

/-- Model of `parseRemValue` (src/main.ts 205-209): regex `^([\d.]+)rem$`. Since
`r`, `e`, `m` are not in `[\d.]`, the regex matches exactly the strings
PRE ++ "rem" with PRE a nonempty run of digits and dots, capturing PRE.
`parseFloat` of a digits-and-dots string can still be `NaN` (for example
for "."), which the callers' `=== null` checks do not filter out. -/
def parseRemValue (value : String) : Option JSNum :=
  let l := value.data
  let pre := l.take (l.length - 3)
  if l.drop (l.length - 3) = "rem".data ∧ pre ≠ [] ∧
      pre.all (fun c => isDigitChar c || c == '.') then
    some (jsParseFloat ⟨pre⟩)
  else none

/-- Model of `remToPx` (src/main.ts 214-216): 1rem = 16px. -/
def remToPx (rem : JSNum) : JSNum := rem.mul (.val 16)

/-- Match `--spacing:\s*([^;]+);` at the current position. -/
def matchSpacingAt (l : List Char) : Option String :=
  if "--spacing:".data.isPrefixOf l then
    (matchValueAfterColon (l.drop 10)).map Prod.fst
  else none

/-- Model of `parseSpacingBase` (src/main.ts 221-229): first match of the
(non-global) spacing regex, then `parseRemValue` on the trimmed value. -/
def parseSpacingBase (cssContent : String) : Option JSNum :=
  (findFirstMatch matchSpacingAt cssContent.data.length cssContent.data).bind parseRemValue

/-- Model of `SPACING_MULTIPLIERS` (src/main.ts 165-200). -/
def SPACING_MULTIPLIERS : List ℚ :=
  [0, 0.5, 1, 1.5, 2, 2.5, 3, 3.5, 4, 5, 6, 7, 8, 9, 10, 11, 12, 14, 16,
   20, 24, 28, 32, 36, 40, 44, 48, 52, 56, 60, 64, 72, 80, 96]

/-- Model of `String(n)` for the numbers in the multiplier list: integers print
with no decimal point, halves with the single decimal digit 5 (JS prints
the shortest decimal representation). -/
def jsNumberString (q : ℚ) : String :=
  if q.den = 1 then toString q.num
  else toString ⌊q⌋ ++ "." ++ toString ((q - ⌊q⌋) * 10).num

/-- Model of `generateSpacingTokens` (src/main.ts 234-258): one token per
multiplier, then the fixed `spacing-px` entry with value 1. -/
def generateSpacingTokens (baseRem : JSNum) : List (String × Token) :=
  let tokens := SPACING_MULTIPLIERS.foldl
    (fun t m =>
      mapSet t ("spacing-" ++ jsNumberString m)
        (.number (remToPx (baseRem.mul (.val m))))) []
  mapSet tokens "spacing-px" (.number (.val 1))

/-- The generation loop shared by all per-variable categories: for each
(name, value) pair of the parsed map in order, convert the value and
insert the token under the derived key, skipping failed conversions. -/
def recordFold (keyOf : String → String) (conv : String → String → Option Token)
    (vars : List (String × String)) : List (String × Token) :=
  vars.foldl (fun t p =>
    match conv p.1 p.2 with
    | some tok => mapSet t (keyOf p.1) tok
    | none => t) []

/-- Model of `generateRadiusTokens` (src/main.ts 280-301): entries whose value
fails `parseRemValue` (`=== null`) are skipped; a `NaN` number is not
null and is emitted. -/
def generateRadiusTokens (radiusVariables : List (String × String)) :
    List (String × Token) :=
  recordFold (fun n => "radius-" ++ n)
    (fun _ v => (parseRemValue v).map (fun r => .number (remToPx r))) radiusVariables

/-- Model of `generateContainerTokens` (src/main.ts 362-383). -/
def generateContainerTokens (containerVariables : List (String × String)) :
    List (String × Token) :=
  recordFold (fun n => "container-" ++ n)
    (fun _ v => (parseRemValue v).map (fun r => .number (remToPx r))) containerVariables

/-- Model of `generateBreakpointTokens` (src/main.ts 405-426). -/
def generateBreakpointTokens (breakpointVariables : List (String × String)) :
    List (String × Token) :=
  recordFold (fun n => "breakpoint-" ++ n)
    (fun _ v => (parseRemValue v).map (fun r => .number (remToPx r))) breakpointVariables

/-- Model of `generateTextTokens` (src/main.ts 453-474). -/
def generateTextTokens (textVariables : List (String × String)) :
    List (String × Token) :=
  recordFold (fun n => "text-" ++ n)
    (fun _ v => (parseRemValue v).map (fun r => .number (remToPx r))) textVariables

/-- Model of `generateFontWeightTokens` (src/main.ts 496-515): `parseInt(_, 10)`
with an explicit `isNaN` skip. -/
def generateFontWeightTokens (fontWeightVariables : List (String × String)) :
    List (String × Token) :=
  recordFold (fun n => "font-weight-" ++ n)
    (fun _ v => let k := jsParseInt10 v; if k = .nan then none else some (.number k))
    fontWeightVariables

/-- Model of `generateShadowTokens` (src/main.ts 327-340): verbatim string tokens
under the already complete `family-size` key. -/
def generateShadowTokens (shadowVariables : List (String × String)) :
    List (String × Token) :=
  recordFold (fun n => n) (fun _ v => some (.str v)) shadowVariables

/-- Model of `generateTrackingTokens` (src/main.ts 537-550): verbatim string
tokens under `tracking-NAME`. -/
def generateTrackingTokens (trackingVariables : List (String × String)) :
    List (String × Token) :=
  recordFold (fun n => "tracking-" ++ n) (fun _ v => some (.str v)) trackingVariables

/-- First match of `/calc\(([^)]+)\)/` over the string: the capture is
the nonempty text between `calc(` and the first following `)`. -/
def findCalcCapture : List Char → Option (List Char)
  | [] => none
  | c :: rest =>
    if "calc(".data.isPrefixOf (c :: rest) then
      let after := (c :: rest).drop 5
      let inner := after.takeWhile (fun x => x != ')')
      if inner.isEmpty then findCalcCapture rest
      else
        match after.drop inner.length with
        | ')' :: _ => some inner
        | _ => findCalcCapture rest
    else findCalcCapture rest

/-- Text before the first SEP (`split(sep)[0]`). -/
def splitPart0 (sep : Char) (l : List Char) : List Char :=
  l.takeWhile (fun c => c != sep)

/-- Text between the first and second SEP, to the end if there is no
second (`split(sep)[1]`, which exists whenever the string contains SEP). -/
def splitPart1 (sep : Char) (l : List Char) : List Char :=
  (l.drop ((splitPart0 sep l).length + 1)).takeWhile (fun c => c != sep)

/-- Model of `evaluateCalc` (src/main.ts 555-586). The `/` and `*` branches return
the raw quotient or product of the parsed operands with no `isNaN`
filtering, unlike the two direct-parse branches. -/
def evaluateCalc (calcString : String) : Option JSNum :=
  match findCalcCapture calcString.data with
  | none =>
    let num := jsParseFloat calcString
    if num = .nan then none else some num
  | some innerRaw =>
    let expression := jsTrim ⟨innerRaw⟩
    if expression.data.contains '/' then
      let numerator := jsParseFloat (jsTrim ⟨splitPart0 '/' expression.data⟩)
      let denominator := jsParseFloat (jsTrim ⟨splitPart1 '/' expression.data⟩)
      some (numerator.div denominator)
    else if expression.data.contains '*' then
      let lhs := jsParseFloat (jsTrim ⟨splitPart0 '*' expression.data⟩)
      let rhs := jsParseFloat (jsTrim ⟨splitPart1 '*' expression.data⟩)
      some (lhs.mul rhs)
    else
      let num := jsParseFloat expression
      if num = .nan then none else some num

/-- Model of `generateLeadingTokens` (src/main.ts 620-642): skips only a null
(`none`) evaluation; any returned number, `NaN` included, is rounded to
3 decimals and emitted under the map key itself. -/
def generateLeadingTokens (leadingVariables : List (String × String)) :
    List (String × Token) :=
  recordFold (fun n => n)
    (fun _ v => (evaluateCalc v).map (fun x => .number (roundTo3 x))) leadingVariables

/-- Model of `String.prototype.slice` for nonnegative indices. -/
def jsSlice (s : String) (i j : ℕ) : String := ⟨(s.data.drop i).take (j - i)⟩

/-- Model of `hexToComponents` (src/main.ts 126-143): a 4-character value `#abc`
is expanded by doubling each nibble; then the three 2-character slices
are parsed in base 16 (prefix parsing, `NaN` when no hex digit starts
the slice), divided by 255 and rounded to 3 decimals. -/
def hexToComponents (hex : String) : List JSNum :=
  let expandedHex :=
    if hex.data.length = 4 then
      match hex.data with
      | [_, c1, c2, c3] => (⟨['#', c1, c1, c2, c2, c3, c3]⟩ : String)
      | _ => hex
    else hex
  [roundTo3 ((jsParseIntHex (jsSlice expandedHex 1 3)).div (.val 255)),
   roundTo3 ((jsParseIntHex (jsSlice expandedHex 3 5)).div (.val 255)),
   roundTo3 ((jsParseIntHex (jsSlice expandedHex 5 7)).div (.val 255))]

/-- Model of `DesignTokens` (src/main.ts 95-106); the `"Font Weight"` key is the
Lean field `FontWeight`. -/
structure DesignTokens where
  Color : List (String × Token)
  Spacing : List (String × Token)
  Radius : List (String × Token)
  Shadow : List (String × Token)
  Container : List (String × Token)
  Breakpoint : List (String × Token)
  Text : List (String × Token)
  FontWeight : List (String × Token)
  Tracking : List (String × Token)
  Leading : List (String × Token)
deriving DecidableEq

/-- The ten top-level keys with their mappings, in the insertion order of
the object literal (src/main.ts 658-669), which is the order
`JSON.stringify` serializes. -/
def DesignTokens.categoriesList (t : DesignTokens) :
    List (String × List (String × Token)) :=
  [("Color", t.Color), ("Spacing", t.Spacing), ("Radius", t.Radius),
   ("Shadow", t.Shadow), ("Container", t.Container), ("Breakpoint", t.Breakpoint),
   ("Text", t.Text), ("Font Weight", t.FontWeight), ("Tracking", t.Tracking),
   ("Leading", t.Leading)]

/-- The conversion step of the color loop (src/main.ts 671-697): values
starting with `#` are taken verbatim with no further validation, values
starting with `oklch(` go through the converter, anything else is
skipped. -/
def colorConv (oklchToHexFn : String → Option String) (_name value : String) :
    Option Token :=
  let hex :=
    if "#".data.isPrefixOf value.data then some value
    else if "oklch(".data.isPrefixOf value.data then oklchToHexFn value
    else none
  hex.map (fun h => .color (hexToComponents h) h)

/-- Model of `convertThemeToFigmaVariables` (src/main.ts 647-789) with the file
I/O stripped: input is the CSS text, output the token document. The
`oklchToHex` helper (src/main.ts 111-121) is a call into the external
culori library, which is not part of this repository; the conversion is
parameterized over it and the claims hold for an arbitrary converter.
All ten categories are pre-initialized empty and only overwritten when
the category's parse found at least one match. -/
def convertThemeToFigmaVariables (oklchToHexFn : String → Option String)
    (cssContent : String) : DesignTokens :=
  let colorVariables := parseColorVariables cssContent
  let radiusVariables := parseRadiusVariables cssContent
  let shadowVariables := parseShadowVariables cssContent
  let containerVariables := parseContainerVariables cssContent
  let breakpointVariables := parseBreakpointVariables cssContent
  let textVariables := parseTextVariables cssContent
  let fontWeightVariables := parseFontWeightVariables cssContent
  let trackingVariables := parseTrackingVariables cssContent
  let leadingVariables := parseLeadingVariables cssContent
  { Color := recordFold (fun n => "color-" ++ n) (colorConv oklchToHexFn) colorVariables
    Spacing :=
      match parseSpacingBase cssContent with
      | some baseRem => generateSpacingTokens baseRem
      | none => []
    Radius := if radiusVariables.isEmpty then [] else generateRadiusTokens radiusVariables
    Shadow := if shadowVariables.isEmpty then [] else generateShadowTokens shadowVariables
    Container :=
      if containerVariables.isEmpty then [] else generateContainerTokens containerVariables
    Breakpoint :=
      if breakpointVariables.isEmpty then [] else generateBreakpointTokens breakpointVariables
    Text := if textVariables.isEmpty then [] else generateTextTokens textVariables
    FontWeight :=
      if fontWeightVariables.isEmpty then [] else generateFontWeightTokens fontWeightVariables
    Tracking :=
      if trackingVariables.isEmpty then [] else generateTrackingTokens trackingVariables
    Leading :=
      if leadingVariables.isEmpty then [] else generateLeadingTokens leadingVariables }

/-- JSON rendering of a number: `JSON.stringify` renders non-finite
numbers as `null`; finite values are rendered with the rational printer
(the exact decimal format of doubles is irrelevant to the claims). -/
def serializeJSNum : JSNum → String
  | .nan => "null"
  | .inf => "null"
  | .ninf => "null"
  | .val q => toString q

/-- JSON rendering of one token. -/
def serializeToken : Token → String
  | .color comps hex =>
    "\x7b\"$type\":\"color\",\"$value\":\x7b\"colorSpace\":\"srgb\",\"components\":[" ++
      String.intercalate "," (comps.map serializeJSNum) ++ "],\"hex\":\"" ++ hex ++ "\"\x7d\x7d"
  | .number v => "\x7b\"$type\":\"number\",\"$value\":" ++ serializeJSNum v ++ "\x7d"
  | .str v => "\x7b\"$type\":\"string\",\"$value\":\"" ++ v ++ "\"\x7d"

/-- JSON rendering of one category mapping. -/
def serializeCategory (entries : List (String × Token)) : String :=
  "\x7b" ++
    String.intercalate ","
      (entries.map (fun p => "\"" ++ p.1 ++ "\":" ++ serializeToken p.2)) ++ "\x7d"

/-- JSON rendering of the whole document (string escaping and pretty
printing abstracted; only determinism of the rendering matters for the
claims). -/
def serializeTokens (t : DesignTokens) : String :=
  "\x7b" ++
    String.intercalate ","
      (t.categoriesList.map (fun p => "\"" ++ p.1 ++ "\":" ++ serializeCategory p.2)) ++
    "\x7d"

/-- Specification-side rounding to 3 decimal places, written with
Mathlib's `round` (for nonnegative arguments this is the same half-up
rounding `Math.round` performs). -/
def specRound3 (x : ℚ) : ℚ := ((round (x * 1000) : ℤ) : ℚ) / 1000

/-- Specification-side reading of a "bare rem number" `<number>rem`: a
nonempty digits-and-dots run with at most one dot and at least one
digit, followed by exactly `rem`. -/
def isBareRemNumber (value : String) : Bool :=
  let l := value.data
  let pre := l.take (l.length - 3)
  decide (l.drop (l.length - 3) = "rem".data) && (!pre.isEmpty) &&
    pre.all (fun c => isDigitChar c || c == '.') &&
    decide (pre.count '.' ≤ 1) && pre.any isDigitChar

theorem mapGet_mapSet_self {α : Type} (m : List (String × α)) (k : String) (v : α) :
    mapGet (mapSet m k v) k = some v := by
  induction m with
  | nil => simp [mapSet, mapGet]
  | cons p rest ih =>
    by_cases h : p.1 = k
    · simp [mapSet, mapGet, h]
    · simp [mapSet, mapGet, h, ih]

theorem mapGet_mapSet_ne {α : Type} (m : List (String × α)) (k k0 : String) (v : α)
    (hne : k0 ≠ k) : mapGet (mapSet m k v) k0 = mapGet m k0 := by
  induction m with
  | nil => simp [mapSet, mapGet, Ne.symm hne]
  | cons p rest ih =>
    by_cases h : p.1 = k
    · subst h
      simp [mapSet, mapGet, Ne.symm hne]
    · simp [mapSet, mapGet, h, ih]

theorem mapGet_eq_none_of_not_mem {α : Type} (m : List (String × α)) (k : String)
    (h : k ∉ m.map Prod.fst) : mapGet m k = none := by
  induction m with
  | nil => rfl
  | cons p rest ih =>
    simp only [List.map_cons, List.mem_cons] at h
    push_neg at h
    simp [mapGet, Ne.symm h.1, ih h.2]

theorem mapSet_keys {α : Type} (m : List (String × α)) (k : String) (v : α) :
    (mapSet m k v).map Prod.fst =
      if k ∈ m.map Prod.fst then m.map Prod.fst else m.map Prod.fst ++ [k] := by
  induction m with
  | nil => simp [mapSet]
  | cons p rest ih =>
    by_cases h : p.1 = k
    · simp [mapSet, h]
    · have : ¬ (k = p.1) := fun h2 => h h2.symm
      by_cases hmem : k ∈ rest.map Prod.fst <;>
        simp [mapSet, h, this, hmem, ih]

theorem mapSet_nodupKeys {α : Type} (m : List (String × α)) (k : String) (v : α)
    (h : (m.map Prod.fst).Nodup) : ((mapSet m k v).map Prod.fst).Nodup := by
  rw [mapSet_keys]
  by_cases hmem : k ∈ m.map Prod.fst
  · simpa [hmem] using h
  · simp [hmem, List.nodup_append, h]

theorem nodupKeys_foldl {α β : Type} (step : List (String × α) → β → List (String × α))
    (hstep : ∀ m x, step m x = m ∨ ∃ k v, step m x = mapSet m k v)
    (l : List β) (acc : List (String × α)) (hacc : (acc.map Prod.fst).Nodup) :
    ((l.foldl step acc).map Prod.fst).Nodup := by
  induction l generalizing acc with
  | nil => simpa using hacc
  | cons x rest ih =>
    refine ih (step acc x) ?_
    rcases hstep acc x with h | ⟨k, v, h⟩
    · rw [h]; exact hacc
    · rw [h]; exact mapSet_nodupKeys acc k v hacc

theorem nodupKeys_buildMap (l : List (String × String)) :
    ((buildMap l).map Prod.fst).Nodup := by
  refine nodupKeys_foldl _ ?_ l [] (by simp)
  intro m x
  exact Or.inr ⟨x.1, x.2, rfl⟩

theorem getLast?_cons_eq_or {α : Type} (a : α) (l : List α) :
    (a :: l).getLast? = l.getLast?.or (some a) := by
  induction l generalizing a with
  | nil => simp [Option.or]
  | cons b l2 ih =>
    rw [List.getLast?_cons_cons, ih b]
    cases hl : l2.getLast? with
    | none => simp [Option.or]
    | some q => simp [Option.or]

theorem mapGet_foldl_mapSet (l : List (String × String)) (acc : List (String × String))
    (k : String) :
    mapGet (l.foldl (fun m p => mapSet m p.1 p.2) acc) k =
      (((l.filter (fun p => p.1 == k)).getLast?).map Prod.snd).or (mapGet acc k) := by
  induction l generalizing acc with
  | nil => simp [Option.or]
  | cons p rest ih =>
    rw [List.foldl_cons, ih (mapSet acc p.1 p.2)]
    by_cases h : p.1 = k
    · subst h
      rw [mapGet_mapSet_self acc p.1 p.2]
      have hfil : (p :: rest).filter (fun q => q.1 == p.1) =
          p :: rest.filter (fun q => q.1 == p.1) := by
        simp [List.filter_cons]
      rw [hfil, getLast?_cons_eq_or]
      cases hlast : (rest.filter (fun q => q.1 == p.1)).getLast? with
      | none => simp [Option.or]
      | some q => simp [Option.or]
    · rw [mapGet_mapSet_ne acc p.1 k p.2 (Ne.symm h)]
      have hfil : (p :: rest).filter (fun q => q.1 == k) =
          rest.filter (fun q => q.1 == k) := by
        simp [List.filter_cons, h]
      rw [hfil]

theorem mapGet_buildMap (l : List (String × String)) (k : String) :
    mapGet (buildMap l) k = ((l.filter (fun p => p.1 == k)).getLast?).map Prod.snd := by
  rw [buildMap, mapGet_foldl_mapSet l [] k]
  cases h : ((l.filter (fun p => p.1 == k)).getLast?).map Prod.snd <;> simp [h, Option.or, mapGet]

theorem mapGet_buildMap_mem (l : List (String × String)) (k v : String)
    (h : mapGet (buildMap l) k = some v) : (∃ q ∈ l, q.2 = v) := by
  rw [mapGet_buildMap] at h
  cases hlast : (l.filter (fun p => p.1 == k)).getLast? with
  | none => rw [hlast] at h; simp at h
  | some q =>
    rw [hlast] at h
    refine ⟨q, ?_, ?_⟩
    · have hq : q ∈ (l.filter (fun p => p.1 == k)).getLast? := by
        rw [Option.mem_def]; exact hlast
      obtain ⟨hne, heq⟩ := List.mem_getLast?_eq_getLast hq
      exact List.mem_of_mem_filter (by rw [heq]; exact List.getLast_mem hne)
    · simpa using h

theorem string_append_left_cancel (s a b : String) (h : s ++ a = s ++ b) : a = b := by
  have hdata : s.data ++ a.data = s.data ++ b.data := congrArg String.data h
  cases a with
  | mk da =>
    cases b with
    | mk db =>
      have : da = db := List.append_cancel_left hdata
      rw [this]

theorem string_append_right_cancel (a b t : String) (h : a ++ t = b ++ t) : a = b := by
  have hdata : a.data ++ t.data = b.data ++ t.data := congrArg String.data h
  cases a with
  | mk da =>
    cases b with
    | mk db =>
      have : da = db := List.append_cancel_right hdata
      rw [this]

theorem beq_append_left (s a b : String) : ((s ++ a) == (s ++ b)) = (a == b) := by
  cases hab : a == b with
  | false =>
    refine beq_eq_false_iff_ne.mpr ?_
    intro he
    exact absurd (string_append_left_cancel s a b he) (beq_eq_false_iff_ne.mp hab)
  | true =>
    rw [beq_iff_eq] at hab
    subst hab
    simp

theorem beq_append_right (a b t : String) : ((a ++ t) == (b ++ t)) = (a == b) := by
  cases hab : a == b with
  | false =>
    refine beq_eq_false_iff_ne.mpr ?_
    intro he
    exact absurd (string_append_right_cancel a b t he) (beq_eq_false_iff_ne.mp hab)
  | true =>
    rw [beq_iff_eq] at hab
    subst hab
    simp

theorem text_lh_ne_leading (x y : String) :
    ("text-" ++ x ++ "--line-height") ≠ ("leading-" ++ y) := by
  intro he
  have h1 : ("text-" ++ x ++ "--line-height").data.head? = some 't' := rfl
  rw [he] at h1
  have h2 : ("leading-" ++ y).data.head? = some 'l' := rfl
  rw [h2] at h1
  exact absurd (Option.some.inj h1) (by decide)

theorem mapGet_foldl_mapSet_keyed {β : Type} (keyF valF : β → String) (l : List β)
    (acc : List (String × String)) (k : String) :
    mapGet (l.foldl (fun m x => mapSet m (keyF x) (valF x)) acc) k =
      (((l.filter (fun x => keyF x == k)).getLast?).map valF).or (mapGet acc k) := by
  induction l generalizing acc with
  | nil => simp [Option.or]
  | cons p rest ih =>
    rw [List.foldl_cons, ih (mapSet acc (keyF p) (valF p))]
    by_cases h : keyF p = k
    · subst h
      rw [mapGet_mapSet_self acc (keyF p) (valF p)]
      have hfil : (p :: rest).filter (fun x => keyF x == keyF p) =
          p :: rest.filter (fun x => keyF x == keyF p) := by
        simp [List.filter_cons]
      rw [hfil, getLast?_cons_eq_or]
      cases hlast : (rest.filter (fun x => keyF x == keyF p)).getLast? with
      | none => simp [Option.or]
      | some q => simp [Option.or]
    · rw [mapGet_mapSet_ne acc (keyF p) k (valF p) (Ne.symm h)]
      have hfil : (p :: rest).filter (fun x => keyF x == k) =
          rest.filter (fun x => keyF x == k) := by
        simp [List.filter_cons, h]
      rw [hfil]

theorem mapGet_foldl_mapSet_skip (cond : String → Bool) (l : List (String × String))
    (acc : List (String × String)) (k : String) :
    mapGet (l.foldl
        (fun m p => if cond p.1 then m else mapSet m p.1 p.2) acc) k =
      if cond k then mapGet acc k
      else (((l.filter (fun p => p.1 == k)).getLast?).map Prod.snd).or (mapGet acc k) := by
  induction l generalizing acc with
  | nil => cases hck : cond k <;> simp [hck, Option.or]
  | cons p rest ih =>
    rw [List.foldl_cons]
    by_cases hc : cond p.1 = true
    · rw [if_pos hc, ih acc]
      by_cases hck : cond k = true
      · rw [if_pos hck, if_pos hck]
      · rw [if_neg hck, if_neg hck]
        have hpk : ¬ p.1 = k := by
          intro he
          rw [he] at hc
          exact hck hc
        have hfil : (p :: rest).filter (fun q => q.1 == k) =
            rest.filter (fun q => q.1 == k) := by
          simp [List.filter_cons, hpk]
        rw [hfil]
    · rw [if_neg hc, ih (mapSet acc p.1 p.2)]
      by_cases hck : cond k = true
      · rw [if_pos hck, if_pos hck]
        have hpk : ¬ p.1 = k := by
          intro he
          rw [he] at hc
          exact hc hck
        rw [mapGet_mapSet_ne acc p.1 k p.2 (Ne.symm hpk)]
      · rw [if_neg hck, if_neg hck]
        by_cases hpk : p.1 = k
        · subst hpk
          rw [mapGet_mapSet_self acc p.1 p.2]
          have hfil : (p :: rest).filter (fun q => q.1 == p.1) =
              p :: rest.filter (fun q => q.1 == p.1) := by
            simp [List.filter_cons]
          rw [hfil, getLast?_cons_eq_or]
          cases hlast : (rest.filter (fun q => q.1 == p.1)).getLast? with
          | none => simp [Option.or]
          | some q => simp [Option.or]
        · rw [mapGet_mapSet_ne acc p.1 k p.2 (Ne.symm hpk)]
          have hfil : (p :: rest).filter (fun q => q.1 == k) =
              rest.filter (fun q => q.1 == k) := by
            simp [List.filter_cons, hpk]
          rw [hfil]

theorem mapGet_parseTextVariables (css name : String) :
    mapGet (parseTextVariables css) name =
      if listContainsSub "--line-height".data name.data then none
      else ((textMatches css).filter (fun p => p.1 == name)).getLast?.map Prod.snd := by
  rw [parseTextVariables,
    mapGet_foldl_mapSet_skip (fun s => listContainsSub "--line-height".data s.data)
      (textMatches css) [] name]
  cases hc : listContainsSub "--line-height".data name.data with
  | false =>
    rw [if_neg Bool.false_ne_true, if_neg Bool.false_ne_true]
    cases hlast : ((textMatches css).filter (fun p => p.1 == name)).getLast? with
    | none => simp [mapGet, Option.or]
    | some q => simp [mapGet, Option.or]
  | true =>
    rw [if_pos rfl, if_pos rfl]
    rfl

theorem mapGet_parseLeading_leading (css name : String) :
    mapGet (parseLeadingVariables css) ("leading-" ++ name) =
      ((leadingMatches css).filter (fun p => p.1 == name)).getLast?.map Prod.snd := by
  simp only [parseLeadingVariables]
  rw [mapGet_foldl_mapSet_keyed (fun p => "text-" ++ p.1 ++ "--line-height") Prod.snd
    (textLineHeightMatches css) _ ("leading-" ++ name)]
  have hfil : (textLineHeightMatches css).filter
      (fun p => (("text-" ++ p.1 ++ "--line-height") == ("leading-" ++ name))) = [] := by
    rw [List.filter_eq_nil_iff]
    intro p hp
    simp only [beq_iff_eq]
    exact text_lh_ne_leading p.1 name
  rw [hfil]
  simp only [List.getLast?_nil, Option.map_none', Option.none_or]
  rw [mapGet_foldl_mapSet_keyed (fun p => "leading-" ++ p.1) Prod.snd
    (leadingMatches css) [] ("leading-" ++ name)]
  simp only [beq_append_left]
  cases hlast : ((leadingMatches css).filter (fun p => p.1 == name)).getLast? with
  | none => simp [mapGet, Option.or]
  | some q => simp [mapGet, Option.or]

theorem mapGet_parseLeading_textlh (css name : String) :
    mapGet (parseLeadingVariables css) ("text-" ++ name ++ "--line-height") =
      ((textLineHeightMatches css).filter (fun p => p.1 == name)).getLast?.map Prod.snd := by
  simp only [parseLeadingVariables]
  rw [mapGet_foldl_mapSet_keyed (fun p => "text-" ++ p.1 ++ "--line-height") Prod.snd
    (textLineHeightMatches css) _ ("text-" ++ name ++ "--line-height")]
  simp only [beq_append_right, beq_append_left]
  rw [mapGet_foldl_mapSet_keyed (fun p => "leading-" ++ p.1) Prod.snd
    (leadingMatches css) [] ("text-" ++ name ++ "--line-height")]
  have hfil : (leadingMatches css).filter
      (fun p => (("leading-" ++ p.1) == ("text-" ++ name ++ "--line-height"))) = [] := by
    rw [List.filter_eq_nil_iff]
    intro p hp
    simp only [beq_iff_eq]
    exact fun he => text_lh_ne_leading name p.1 he.symm
  rw [hfil]
  simp only [List.getLast?_nil, Option.map_none', Option.none_or]
  cases hlast : ((textLineHeightMatches css).filter (fun p => p.1 == name)).getLast? with
  | none => simp [mapGet, Option.or]
  | some q => simp [mapGet, Option.or]

theorem mapGet_recordFold_aux (keyOf : String → String) (conv : String → String → Option Token)
    (name : String) (hinj : ∀ a b, keyOf a = keyOf b → a = b)
    (vars : List (String × String)) (acc : List (String × Token))
    (hnd : (vars.map Prod.fst).Nodup) :
    mapGet (vars.foldl (fun t p =>
        match conv p.1 p.2 with
        | some tok => mapSet t (keyOf p.1) tok
        | none => t) acc) (keyOf name) =
      ((mapGet vars name).bind (conv name)).or (mapGet acc (keyOf name)) := by
  induction vars generalizing acc with
  | nil => simp [mapGet, Option.or]
  | cons p rest ih =>
    simp only [List.map_cons, List.nodup_cons] at hnd
    rw [List.foldl_cons, ih _ hnd.2]
    by_cases h : p.1 = name
    · subst h
      rw [mapGet_eq_none_of_not_mem rest p.1 hnd.1]
      cases hc : conv p.1 p.2 with
      | none => simp [mapGet, hc, Option.or]
      | some tok => simp [mapGet, hc, Option.or, mapGet_mapSet_self]
    · have hkey : keyOf p.1 ≠ keyOf name := fun he => h (hinj _ _ he)
      have hacc : mapGet (match conv p.1 p.2 with
          | some tok => mapSet acc (keyOf p.1) tok
          | none => acc) (keyOf name) = mapGet acc (keyOf name) := by
        cases hc : conv p.1 p.2 with
        | none => rfl
        | some tok => exact mapGet_mapSet_ne acc (keyOf p.1) (keyOf name) tok (Ne.symm hkey)
      rw [hacc]
      have : mapGet (p :: rest) name = mapGet rest name := by simp [mapGet, h]
      rw [this]

theorem mapGet_recordFold (keyOf : String → String) (conv : String → String → Option Token)
    (name : String) (hinj : ∀ a b, keyOf a = keyOf b → a = b)
    (vars : List (String × String)) (hnd : (vars.map Prod.fst).Nodup) :
    mapGet (recordFold keyOf conv vars) (keyOf name) = (mapGet vars name).bind (conv name) := by
  rw [recordFold, mapGet_recordFold_aux keyOf conv name hinj vars [] hnd]
  cases h : (mapGet vars name).bind (conv name) <;> simp [h, Option.or, mapGet]

theorem nodupKeys_parseColorVariables (css : String) :
    ((parseColorVariables css).map Prod.fst).Nodup := nodupKeys_buildMap _

theorem nodupKeys_parseRadiusVariables (css : String) :
    ((parseRadiusVariables css).map Prod.fst).Nodup := nodupKeys_buildMap _

theorem nodupKeys_parseContainerVariables (css : String) :
    ((parseContainerVariables css).map Prod.fst).Nodup := nodupKeys_buildMap _

theorem nodupKeys_parseBreakpointVariables (css : String) :
    ((parseBreakpointVariables css).map Prod.fst).Nodup := nodupKeys_buildMap _

theorem nodupKeys_parseShadowVariables (css : String) :
    ((parseShadowVariables css).map Prod.fst).Nodup := nodupKeys_buildMap _

theorem nodupKeys_parseFontWeightVariables (css : String) :
    ((parseFontWeightVariables css).map Prod.fst).Nodup := nodupKeys_buildMap _

theorem nodupKeys_parseTrackingVariables (css : String) :
    ((parseTrackingVariables css).map Prod.fst).Nodup := nodupKeys_buildMap _

theorem nodupKeys_parseTextVariables (css : String) :
    ((parseTextVariables css).map Prod.fst).Nodup := by
  refine nodupKeys_foldl _ ?_ (textMatches css) [] (by simp)
  intro m p
  by_cases h : listContainsSub "--line-height".data p.1.data
  · exact Or.inl (by simp [h])
  · exact Or.inr ⟨p.1, p.2, by simp [h]⟩

theorem nodupKeys_parseLeadingVariables (css : String) :
    ((parseLeadingVariables css).map Prod.fst).Nodup := by
  rw [parseLeadingVariables]
  refine nodupKeys_foldl _ ?_ (textLineHeightMatches css) _ ?_
  · intro m p
    exact Or.inr ⟨"text-" ++ p.1 ++ "--line-height", p.2, rfl⟩
  · refine nodupKeys_foldl _ ?_ (leadingMatches css) [] (by simp)
    intro m p
    exact Or.inr ⟨"leading-" ++ p.1, p.2, rfl⟩

theorem mapGet_some_ne_nil {α : Type} (m : List (String × α)) (k : String) (v : α)
    (h : mapGet m k = some v) : m.isEmpty = false := by
  cases m with
  | nil => simp [mapGet] at h
  | cons p rest => rfl

theorem convert_Color (f : String → Option String) (css : String) :
    (convertThemeToFigmaVariables f css).Color =
      recordFold (fun n => "color-" ++ n) (colorConv f) (parseColorVariables css) := rfl

theorem convert_Spacing (f : String → Option String) (css : String) :
    (convertThemeToFigmaVariables f css).Spacing =
      (match parseSpacingBase css with
       | some baseRem => generateSpacingTokens baseRem
       | none => []) := rfl

theorem convert_Radius (f : String → Option String) (css : String) :
    (convertThemeToFigmaVariables f css).Radius =
      (if (parseRadiusVariables css).isEmpty then []
       else generateRadiusTokens (parseRadiusVariables css)) := rfl

theorem convert_Shadow (f : String → Option String) (css : String) :
    (convertThemeToFigmaVariables f css).Shadow =
      (if (parseShadowVariables css).isEmpty then []
       else generateShadowTokens (parseShadowVariables css)) := rfl

theorem convert_Container (f : String → Option String) (css : String) :
    (convertThemeToFigmaVariables f css).Container =
      (if (parseContainerVariables css).isEmpty then []
       else generateContainerTokens (parseContainerVariables css)) := rfl

theorem convert_Breakpoint (f : String → Option String) (css : String) :
    (convertThemeToFigmaVariables f css).Breakpoint =
      (if (parseBreakpointVariables css).isEmpty then []
       else generateBreakpointTokens (parseBreakpointVariables css)) := rfl

theorem convert_Text (f : String → Option String) (css : String) :
    (convertThemeToFigmaVariables f css).Text =
      (if (parseTextVariables css).isEmpty then []
       else generateTextTokens (parseTextVariables css)) := rfl

theorem convert_FontWeight (f : String → Option String) (css : String) :
    (convertThemeToFigmaVariables f css).FontWeight =
      (if (parseFontWeightVariables css).isEmpty then []
       else generateFontWeightTokens (parseFontWeightVariables css)) := rfl

theorem convert_Tracking (f : String → Option String) (css : String) :
    (convertThemeToFigmaVariables f css).Tracking =
      (if (parseTrackingVariables css).isEmpty then []
       else generateTrackingTokens (parseTrackingVariables css)) := rfl

theorem convert_Leading (f : String → Option String) (css : String) :
    (convertThemeToFigmaVariables f css).Leading =
      (if (parseLeadingVariables css).isEmpty then []
       else generateLeadingTokens (parseLeadingVariables css)) := rfl

theorem dropWhile_dropWhile (p : Char → Bool) (l : List Char) :
    (l.dropWhile p).dropWhile p = l.dropWhile p := by
  induction l with
  | nil => rfl
  | cons c rest ih =>
    by_cases h : p c <;> simp [List.dropWhile_cons, h, ih]

theorem dropWhile_head_not (p : Char → Bool) (l : List Char) (c : Char) (rest : List Char)
    (h : l.dropWhile p = c :: rest) : p c = false := by
  induction l with
  | nil => simp at h
  | cons a l2 ih =>
    by_cases ha : p a
    · rw [List.dropWhile_cons, if_pos ha] at h
      exact ih h
    · rw [List.dropWhile_cons, if_neg ha] at h
      injection h with h1 _
      rw [← h1]
      exact Bool.eq_false_iff.mpr ha

theorem dropWhile_suffix_self (p : Char → Bool) (l : List Char) : l.dropWhile p <:+ l := by
  induction l with
  | nil => exact List.suffix_refl []
  | cons a l2 ih =>
    by_cases h : p a
    · rw [List.dropWhile_cons, if_pos h]
      exact ih.trans (List.suffix_cons a l2)
    · rw [List.dropWhile_cons, if_neg h]

theorem trimRightChars_isPrefixSelf (l : List Char) : trimRightChars l <+: l := by
  have h := (List.reverse_prefix).mpr (dropWhile_suffix_self isJsWhitespace l.reverse)
  rw [List.reverse_reverse] at h
  exact h

theorem trimRightChars_trimRightChars (l : List Char) :
    trimRightChars (trimRightChars l) = trimRightChars l := by
  unfold trimRightChars
  rw [List.reverse_reverse, dropWhile_dropWhile]

theorem jsTrim_jsTrim (s : String) : jsTrim (jsTrim s) = jsTrim s := by
  unfold jsTrim
  have hdata : (⟨trimRightChars (trimLeftChars s.data)⟩ : String).data =
      trimRightChars (trimLeftChars s.data) := rfl
  rw [hdata]
  have hleft : trimLeftChars (trimRightChars (trimLeftChars s.data)) =
      trimRightChars (trimLeftChars s.data) := by
    cases ht : trimRightChars (trimLeftChars s.data) with
    | nil => rfl
    | cons c rest =>
      have hpre := trimRightChars_isPrefixSelf (trimLeftChars s.data)
      rw [ht] at hpre
      obtain ⟨t, htl⟩ := hpre
      rw [trimLeftChars] at htl
      have hc : isJsWhitespace c = false :=
        dropWhile_head_not isJsWhitespace s.data c (rest ++ t) htl.symm
      rw [trimLeftChars, List.dropWhile_cons, hc]
      simp
  rw [hleft, trimRightChars_trimRightChars]

theorem forall_mem_scanAll {α : Type} (step : List Char → Option (α × List Char))
    (P : α → Prop) (hstep : ∀ s a r, step s = some (a, r) → P a) :
    ∀ (fuel : ℕ) (l : List Char) (a : α), a ∈ scanAll step fuel l → P a := by
  intro fuel
  induction fuel with
  | zero => intro l a ha; simp [scanAll] at ha
  | succ n ih =>
    intro l a ha
    cases l with
    | nil => simp [scanAll] at ha
    | cons c rest =>
      rw [scanAll] at ha
      cases hs : step (c :: rest) with
      | none =>
        rw [hs] at ha
        exact ih rest a ha
      | some pr =>
        rw [hs] at ha
        rcases List.mem_cons.mp ha with h | h
        · exact h ▸ hstep _ _ _ hs
        · exact ih pr.2 a h

theorem matchValueAfterColon_trimmed (l : List Char) (pr : String × List Char)
    (h : matchValueAfterColon l = some pr) : jsTrim pr.1 = pr.1 := by
  simp only [matchValueAfterColon] at h
  split at h
  · exact Option.noConfusion h
  · split at h
    · injection h with h1
      rw [← h1]
      exact jsTrim_jsTrim _
    · exact Option.noConfusion h

theorem matchLitDecl_trimmed (lit : List Char) (cls : Char → Bool) (l : List Char)
    (a : String × String) (r : List Char)
    (h : matchLitDecl lit cls l = some (a, r)) : jsTrim a.2 = a.2 := by
  simp only [matchLitDecl] at h
  split at h
  · split at h
    · exact Option.noConfusion h
    · split at h
      · generalize hV : matchValueAfterColon _ = mv at h
        cases mv with
        | none => simp at h
        | some pr =>
          simp only [Option.map_some'] at h
          injection h with h1
          injection h1 with ha hr
          rw [← ha]
          exact matchValueAfterColon_trimmed _ _ hV
      · exact Option.noConfusion h
  · exact Option.noConfusion h

theorem matchShadowDecl_trimmed (l : List Char) (a : String × String) (r : List Char)
    (h : matchShadowDecl l = some (a, r)) : jsTrim a.2 = a.2 := by
  simp only [matchShadowDecl] at h
  split at h
  · cases hf : shadowFamilyAt (l.drop 2) with
    | none => rw [hf] at h; exact Option.noConfusion h
    | some fam =>
      rw [hf] at h
      simp only at h
      split at h
      · split at h
        · exact Option.noConfusion h
        · split at h
          · generalize hV : matchValueAfterColon _ = mv at h
            cases mv with
            | none => simp at h
            | some pr =>
              simp only [Option.map_some'] at h
              injection h with h1
              injection h1 with ha hr
              rw [← ha]
              exact matchValueAfterColon_trimmed _ _ hV
          · exact Option.noConfusion h
      · exact Option.noConfusion h
  · exact Option.noConfusion h

theorem matchTextLineHeight_trimmed (l : List Char) (a : String × String) (r : List Char)
    (h : matchTextLineHeight l = some (a, r)) : jsTrim a.2 = a.2 := by
  simp only [matchTextLineHeight] at h
  split at h
  · split at h
    · exact Option.noConfusion h
    · split at h
      · generalize hV : matchValueAfterColon _ = mv at h
        cases mv with
        | none => simp at h
        | some pr =>
          simp only [Option.map_some'] at h
          injection h with h1
          injection h1 with ha hr
          rw [← ha]
          exact matchValueAfterColon_trimmed _ _ hV
      · exact Option.noConfusion h
  · exact Option.noConfusion h

theorem ne_of_true_of_false (p : Char → Bool) (c c0 : Char) (h : p c = true)
    (h0 : p c0 = false) : c ≠ c0 := by
  intro he
  rw [he, h0] at h
  exact Bool.noConfusion h

theorem isJsWhitespace_eq_false_of_range (c : Char) (h1 : 33 ≤ c.toNat)
    (h2 : c.toNat ≤ 159) : isJsWhitespace c = false := by
  simp only [isJsWhitespace, Bool.or_eq_false_iff, beq_eq_false_iff_ne, ne_eq,
    Bool.and_eq_false_iff, decide_eq_false_iff_not, not_le]
  omega

theorem toNat_bounds_of_isHexDigitChar (c : Char) (h : isHexDigitChar c = true) :
    48 ≤ c.toNat ∧ c.toNat ≤ 102 := by
  simp only [isHexDigitChar, isDigitChar, Bool.or_eq_true, Bool.and_eq_true,
    decide_eq_true_eq] at h
  omega

theorem isHexDigitChar_not_ws (c : Char) (h : isHexDigitChar c = true) :
    isJsWhitespace c = false := by
  obtain ⟨h1, h2⟩ := toNat_bounds_of_isHexDigitChar c h
  exact isJsWhitespace_eq_false_of_range c (by omega) (by omega)

theorem toNat_bounds_of_isDigitChar (c : Char) (h : isDigitChar c = true) :
    48 ≤ c.toNat ∧ c.toNat ≤ 57 := by
  simp only [isDigitChar, Bool.and_eq_true, decide_eq_true_eq] at h
  omega

theorem isDigitChar_not_ws (c : Char) (h : isDigitChar c = true) :
    isJsWhitespace c = false := by
  obtain ⟨h1, h2⟩ := toNat_bounds_of_isDigitChar c h
  exact isJsWhitespace_eq_false_of_range c (by omega) (by omega)

theorem readSign_cons (c : Char) (l : List Char) (h1 : c ≠ '-') (h2 : c ≠ '+') :
    readSign (c :: l) = (false, c :: l) := by
  unfold readSign
  split <;> simp_all

theorem isPrefixOf_cons_cons (a c : Char) (as l : List Char) :
    (a :: as).isPrefixOf (c :: l) = (a == c && as.isPrefixOf l) := rfl

theorem isPrefixOf_cons_false (a : Char) (as : List Char) (c : Char) (l : List Char)
    (h : a ≠ c) : (a :: as).isPrefixOf (c :: l) = false := by
  rw [isPrefixOf_cons_cons, beq_eq_false_iff_ne.mpr h, Bool.false_and]

theorem takeWhile_all_eq_self (p : Char → Bool) (l : List Char) (h : l.all p = true) :
    l.takeWhile p = l := by
  induction l with
  | nil => rfl
  | cons c rest ih =>
    simp only [List.all_cons, Bool.and_eq_true] at h
    simp [List.takeWhile_cons, h.1, ih h.2]

theorem takeWhile_append_cons (p : Char → Bool) (l : List Char) (c : Char) (r : List Char)
    (hall : l.all p = true) (hc : p c = false) :
    (l ++ c :: r).takeWhile p = l := by
  induction l with
  | nil => simp [List.takeWhile_cons, hc]
  | cons a rest ih =>
    simp only [List.all_cons, Bool.and_eq_true] at hall
    simp [List.takeWhile_cons, hall.1, ih hall.2]

theorem hexDigitVal_le_15 (c : Char) (h : isHexDigitChar c = true) : hexDigitVal c ≤ 15 := by
  simp only [isHexDigitChar, isDigitChar, Bool.or_eq_true, Bool.and_eq_true,
    decide_eq_true_eq] at h
  unfold hexDigitVal
  split_ifs with h1 h2
  · simp only [isDigitChar, Bool.and_eq_true, decide_eq_true_eq] at h1
    omega
  · simp only [isDigitChar, Bool.and_eq_true, decide_eq_true_eq] at h1
    omega
  · simp only [isDigitChar, Bool.and_eq_true, decide_eq_true_eq] at h1
    omega

theorem jsParseIntHex_pair (a b : Char) (ha : isHexDigitChar a = true)
    (hb : isHexDigitChar b = true) :
    jsParseIntHex ⟨[a, b]⟩ = .val (((16 * hexDigitVal a + hexDigitVal b : ℕ) : ℚ)) := by
  have hwa : isJsWhitespace a = false := isHexDigitChar_not_ws a ha
  have hsm : a ≠ '-' := ne_of_true_of_false isHexDigitChar a '-' ha (by decide)
  have hsp : a ≠ '+' := ne_of_true_of_false isHexDigitChar a '+' ha (by decide)
  have hbx : b ≠ 'x' := ne_of_true_of_false isHexDigitChar b 'x' hb (by decide)
  have hbX : b ≠ 'X' := ne_of_true_of_false isHexDigitChar b 'X' hb (by decide)
  have e1 : List.dropWhile isJsWhitespace [a, b] = [a, b] := by
    rw [List.dropWhile_cons, hwa]
    simp
  have e2 : readSign [a, b] = (false, [a, b]) := readSign_cons a [b] hsm hsp
  have e3 : (('0' :: ['x']).isPrefixOf [a, b]) = false := by
    rw [isPrefixOf_cons_cons, isPrefixOf_cons_false 'x' [] b [] (Ne.symm hbx), Bool.and_false]
  have e4 : (('0' :: ['X']).isPrefixOf [a, b]) = false := by
    rw [isPrefixOf_cons_cons, isPrefixOf_cons_false 'X' [] b [] (Ne.symm hbX), Bool.and_false]
  have e5 : List.takeWhile isHexDigitChar [a, b] = [a, b] :=
    takeWhile_all_eq_self isHexDigitChar [a, b] (by simp [ha, hb])
  simp only [jsParseIntHex]
  rw [e1, e2]
  simp only [e3, e4, Bool.or_self, Bool.false_eq_true, if_false, e5, List.isEmpty_cons]
  simp only [hexDigitsToNat, List.foldl_cons, List.foldl_nil]
  congr 1
  push_cast
  ring

theorem JSNum.div_val_val (a b : ℚ) (hb : b ≠ 0) :
    JSNum.div (.val a) (.val b) = .val (a / b) := by
  simp [JSNum.div, hb]

theorem roundTo3_val (x : ℚ) : roundTo3 (.val x) = .val (specRound3 x) := by
  unfold roundTo3 specRound3
  simp only [JSNum.mul, jsMathRound, round_eq]
  rw [JSNum.div_val_val _ _ (by norm_num)]

theorem specRound3_bounds (x : ℚ) (h0 : 0 ≤ x) (h1 : x ≤ 1) :
    0 ≤ specRound3 x ∧ specRound3 x ≤ 1 := by
  unfold specRound3
  rw [round_eq]
  constructor
  · have hge : (0 : ℤ) ≤ ⌊x * 1000 + 1/2⌋ := by
      apply Int.floor_nonneg.mpr
      nlinarith
    positivity
  · have hle : ⌊x * 1000 + 1/2⌋ ≤ 1000 := by
      have h2 : x * 1000 + 1/2 ≤ 1000 + 1/2 := by nlinarith
      have h3 := Int.floor_le_floor h2
      have h4 : ⌊(1000 + 1/2 : ℚ)⌋ = 1000 := by
        rw [Int.floor_eq_iff]
        norm_num
      omega
    rw [div_le_one (by norm_num)]
    exact_mod_cast hle

theorem color_lookup (f : String → Option String) (css name : String) (value : String)
    (h : mapGet (parseColorVariables css) name = some value)
    (hh : ("#".data : List Char).isPrefixOf value.data = true) :
    mapGet (convertThemeToFigmaVariables f css).Color ("color-" ++ name) =
      some (.color (hexToComponents value) value) := by
  rw [convert_Color]
  rw [mapGet_recordFold (fun n => "color-" ++ n) (colorConv f) name
    (fun a b hab => string_append_left_cancel _ _ _ hab) (parseColorVariables css)
    (nodupKeys_parseColorVariables css)]
  rw [h]
  simp only [colorConv, Option.some_bind]
  rw [if_pos hh]
  rfl

theorem hexToComponents_six (d1 d2 d3 d4 d5 d6 : Char)
    (h1 : isHexDigitChar d1 = true) (h2 : isHexDigitChar d2 = true)
    (h3 : isHexDigitChar d3 = true) (h4 : isHexDigitChar d4 = true)
    (h5 : isHexDigitChar d5 = true) (h6 : isHexDigitChar d6 = true) :
    hexToComponents ⟨['#', d1, d2, d3, d4, d5, d6]⟩ =
      [.val (specRound3 (((16 * hexDigitVal d1 + hexDigitVal d2 : ℕ) : ℚ) / 255)),
       .val (specRound3 (((16 * hexDigitVal d3 + hexDigitVal d4 : ℕ) : ℚ) / 255)),
       .val (specRound3 (((16 * hexDigitVal d5 + hexDigitVal d6 : ℕ) : ℚ) / 255))] := by
  have hne : ¬ ((⟨['#', d1, d2, d3, d4, d5, d6]⟩ : String).data.length = 4) := by simp
  simp only [hexToComponents, if_neg hne]
  rw [show jsSlice ⟨['#', d1, d2, d3, d4, d5, d6]⟩ 1 3 = ⟨[d1, d2]⟩ from rfl,
    show jsSlice ⟨['#', d1, d2, d3, d4, d5, d6]⟩ 3 5 = ⟨[d3, d4]⟩ from rfl,
    show jsSlice ⟨['#', d1, d2, d3, d4, d5, d6]⟩ 5 7 = ⟨[d5, d6]⟩ from rfl]
  rw [jsParseIntHex_pair d1 d2 h1 h2, jsParseIntHex_pair d3 d4 h3 h4,
    jsParseIntHex_pair d5 d6 h5 h6]
  rw [JSNum.div_val_val _ _ (by norm_num), JSNum.div_val_val _ _ (by norm_num),
    JSNum.div_val_val _ _ (by norm_num)]
  rw [roundTo3_val, roundTo3_val, roundTo3_val]

theorem hexToComponents_three (c1 c2 c3 : Char)
    (h1 : isHexDigitChar c1 = true) (h2 : isHexDigitChar c2 = true)
    (h3 : isHexDigitChar c3 = true) :
    hexToComponents ⟨['#', c1, c2, c3]⟩ =
      [.val (specRound3 (((16 * hexDigitVal c1 + hexDigitVal c1 : ℕ) : ℚ) / 255)),
       .val (specRound3 (((16 * hexDigitVal c2 + hexDigitVal c2 : ℕ) : ℚ) / 255)),
       .val (specRound3 (((16 * hexDigitVal c3 + hexDigitVal c3 : ℕ) : ℚ) / 255))] := by
  have hlen : ((⟨['#', c1, c2, c3]⟩ : String).data.length = 4) := by simp
  simp only [hexToComponents, if_pos hlen]
  rw [show jsSlice ⟨['#', c1, c1, c2, c2, c3, c3]⟩ 1 3 = ⟨[c1, c1]⟩ from rfl,
    show jsSlice ⟨['#', c1, c1, c2, c2, c3, c3]⟩ 3 5 = ⟨[c2, c2]⟩ from rfl,
    show jsSlice ⟨['#', c1, c1, c2, c2, c3, c3]⟩ 5 7 = ⟨[c3, c3]⟩ from rfl]
  rw [jsParseIntHex_pair c1 c1 h1 h1, jsParseIntHex_pair c2 c2 h2 h2,
    jsParseIntHex_pair c3 c3 h3 h3]
  rw [JSNum.div_val_val _ _ (by norm_num), JSNum.div_val_val _ _ (by norm_num),
    JSNum.div_val_val _ _ (by norm_num)]
  rw [roundTo3_val, roundTo3_val, roundTo3_val]

theorem specRound3_channel_bounds (n : ℕ) (h : n ≤ 255) :
    0 ≤ specRound3 ((n : ℚ) / 255) ∧ specRound3 ((n : ℚ) / 255) ≤ 1 := by
  apply specRound3_bounds
  · positivity
  · rw [div_le_one (by norm_num)]
    exact_mod_cast h

theorem channel_le_255 (a b : Char) (ha : isHexDigitChar a = true)
    (hb : isHexDigitChar b = true) : 16 * hexDigitVal a + hexDigitVal b ≤ 255 := by
  have h1 := hexDigitVal_le_15 a ha
  have h2 := hexDigitVal_le_15 b hb
  omega

theorem radius_lookup (f : String → Option String) (css name value : String)
    (h : mapGet (parseRadiusVariables css) name = some value) :
    mapGet (convertThemeToFigmaVariables f css).Radius ("radius-" ++ name) =
      (parseRemValue value).map (fun r => .number (remToPx r)) := by
  have hne := mapGet_some_ne_nil _ _ _ h
  rw [convert_Radius, if_neg (by simp [hne]), generateRadiusTokens,
    mapGet_recordFold _ _ name (fun a b hab => string_append_left_cancel _ _ _ hab) _
      (nodupKeys_parseRadiusVariables css), h]
  rfl

theorem container_lookup (f : String → Option String) (css name value : String)
    (h : mapGet (parseContainerVariables css) name = some value) :
    mapGet (convertThemeToFigmaVariables f css).Container ("container-" ++ name) =
      (parseRemValue value).map (fun r => .number (remToPx r)) := by
  have hne := mapGet_some_ne_nil _ _ _ h
  rw [convert_Container, if_neg (by simp [hne]), generateContainerTokens,
    mapGet_recordFold _ _ name (fun a b hab => string_append_left_cancel _ _ _ hab) _
      (nodupKeys_parseContainerVariables css), h]
  rfl

theorem breakpoint_lookup (f : String → Option String) (css name value : String)
    (h : mapGet (parseBreakpointVariables css) name = some value) :
    mapGet (convertThemeToFigmaVariables f css).Breakpoint ("breakpoint-" ++ name) =
      (parseRemValue value).map (fun r => .number (remToPx r)) := by
  have hne := mapGet_some_ne_nil _ _ _ h
  rw [convert_Breakpoint, if_neg (by simp [hne]), generateBreakpointTokens,
    mapGet_recordFold _ _ name (fun a b hab => string_append_left_cancel _ _ _ hab) _
      (nodupKeys_parseBreakpointVariables css), h]
  rfl

theorem text_lookup (f : String → Option String) (css name value : String)
    (h : mapGet (parseTextVariables css) name = some value) :
    mapGet (convertThemeToFigmaVariables f css).Text ("text-" ++ name) =
      (parseRemValue value).map (fun r => .number (remToPx r)) := by
  have hne := mapGet_some_ne_nil _ _ _ h
  rw [convert_Text, if_neg (by simp [hne]), generateTextTokens,
    mapGet_recordFold _ _ name (fun a b hab => string_append_left_cancel _ _ _ hab) _
      (nodupKeys_parseTextVariables css), h]
  rfl

theorem shadow_lookup (f : String → Option String) (css name value : String)
    (h : mapGet (parseShadowVariables css) name = some value) :
    mapGet (convertThemeToFigmaVariables f css).Shadow name = some (.str value) := by
  have hne := mapGet_some_ne_nil _ _ _ h
  rw [convert_Shadow, if_neg (by simp [hne]), generateShadowTokens]
  have := mapGet_recordFold (fun n => n) (fun _ v => some (.str v)) name
    (fun a b hab => hab) (parseShadowVariables css) (nodupKeys_parseShadowVariables css)
  rw [this, h]
  rfl

theorem tracking_lookup (f : String → Option String) (css name value : String)
    (h : mapGet (parseTrackingVariables css) name = some value) :
    mapGet (convertThemeToFigmaVariables f css).Tracking ("tracking-" ++ name) =
      some (.str value) := by
  have hne := mapGet_some_ne_nil _ _ _ h
  rw [convert_Tracking, if_neg (by simp [hne]), generateTrackingTokens,
    mapGet_recordFold _ _ name (fun a b hab => string_append_left_cancel _ _ _ hab) _
      (nodupKeys_parseTrackingVariables css), h]
  rfl

theorem fontWeight_lookup (f : String → Option String) (css name value : String)
    (h : mapGet (parseFontWeightVariables css) name = some value) :
    mapGet (convertThemeToFigmaVariables f css).FontWeight ("font-weight-" ++ name) =
      (if jsParseInt10 value = .nan then none else some (.number (jsParseInt10 value))) := by
  have hne := mapGet_some_ne_nil _ _ _ h
  rw [convert_FontWeight, if_neg (by simp [hne]), generateFontWeightTokens,
    mapGet_recordFold _ _ name (fun a b hab => string_append_left_cancel _ _ _ hab) _
      (nodupKeys_parseFontWeightVariables css), h]
  rfl

theorem leading_lookup (f : String → Option String) (css name value : String)
    (h : mapGet (parseLeadingVariables css) name = some value) :
    mapGet (convertThemeToFigmaVariables f css).Leading name =
      (evaluateCalc value).map (fun x => .number (roundTo3 x)) := by
  have hne := mapGet_some_ne_nil _ _ _ h
  rw [convert_Leading, if_neg (by simp [hne]), generateLeadingTokens]
  have := mapGet_recordFold (fun n => n)
    (fun _ v => (evaluateCalc v).map (fun x => .number (roundTo3 x))) name
    (fun a b hab => hab) (parseLeadingVariables css) (nodupKeys_parseLeadingVariables css)
  rw [this, h]
  rfl

/-- C2: for every color variable whose value is a 3-digit or 6-digit hex
string, the emitted Color token's three components each equal
round(channel/255, 3) where channel is the corresponding 8-bit channel of
the (shorthand-expanded) hex value, each component lies in [0, 1], and a
3-digit shorthand is expanded by doubling each nibble before channel
extraction. -/
theorem claim_C2_color_components :
    (∀ (f : String → Option String) (css name : String) (d1 d2 d3 d4 d5 d6 : Char),
      isHexDigitChar d1 = true → isHexDigitChar d2 = true → isHexDigitChar d3 = true →
      isHexDigitChar d4 = true → isHexDigitChar d5 = true → isHexDigitChar d6 = true →
      mapGet (parseColorVariables css) name = some ⟨['#', d1, d2, d3, d4, d5, d6]⟩ →
      mapGet (convertThemeToFigmaVariables f css).Color ("color-" ++ name) =
        some (.color
          [.val (specRound3 (((16 * hexDigitVal d1 + hexDigitVal d2 : ℕ) : ℚ) / 255)),
           .val (specRound3 (((16 * hexDigitVal d3 + hexDigitVal d4 : ℕ) : ℚ) / 255)),
           .val (specRound3 (((16 * hexDigitVal d5 + hexDigitVal d6 : ℕ) : ℚ) / 255))]
          ⟨['#', d1, d2, d3, d4, d5, d6]⟩)) ∧
    (∀ (f : String → Option String) (css name : String) (c1 c2 c3 : Char),
      isHexDigitChar c1 = true → isHexDigitChar c2 = true → isHexDigitChar c3 = true →
      mapGet (parseColorVariables css) name = some ⟨['#', c1, c2, c3]⟩ →
      mapGet (convertThemeToFigmaVariables f css).Color ("color-" ++ name) =
        some (.color
          [.val (specRound3 (((16 * hexDigitVal c1 + hexDigitVal c1 : ℕ) : ℚ) / 255)),
           .val (specRound3 (((16 * hexDigitVal c2 + hexDigitVal c2 : ℕ) : ℚ) / 255)),
           .val (specRound3 (((16 * hexDigitVal c3 + hexDigitVal c3 : ℕ) : ℚ) / 255))]
          ⟨['#', c1, c2, c3]⟩)) ∧
    (∀ a b : Char, isHexDigitChar a = true → isHexDigitChar b = true →
      0 ≤ specRound3 (((16 * hexDigitVal a + hexDigitVal b : ℕ) : ℚ) / 255) ∧
      specRound3 (((16 * hexDigitVal a + hexDigitVal b : ℕ) : ℚ) / 255) ≤ 1) := by
  refine ⟨?_, ?_, ?_⟩
  · intro f css name d1 d2 d3 d4 d5 d6 h1 h2 h3 h4 h5 h6 h
    rw [color_lookup f css name _ h rfl, hexToComponents_six d1 d2 d3 d4 d5 d6 h1 h2 h3 h4 h5 h6]
  · intro f css name c1 c2 c3 h1 h2 h3 h
    rw [color_lookup f css name _ h rfl, hexToComponents_three c1 c2 c3 h1 h2 h3]
  · intro a b ha hb
    exact specRound3_channel_bounds _ (channel_le_255 a b ha hb)

/-- C2 witness: the 6-digit color `#3b82f6` and the shorthand `#abc`. -/
theorem claim_C2_color_components_witness :
    mapGet (convertThemeToFigmaVariables (fun _ => none) "--color-b: #3b82f6;").Color
        ("color-" ++ "b") =
      some (.color
        [.val (specRound3 (((16 * hexDigitVal '3' + hexDigitVal 'b' : ℕ) : ℚ) / 255)),
         .val (specRound3 (((16 * hexDigitVal '8' + hexDigitVal '2' : ℕ) : ℚ) / 255)),
         .val (specRound3 (((16 * hexDigitVal 'f' + hexDigitVal '6' : ℕ) : ℚ) / 255))]
        ⟨['#', '3', 'b', '8', '2', 'f', '6']⟩) ∧
    mapGet (convertThemeToFigmaVariables (fun _ => none) "--color-w: #abc;").Color
        ("color-" ++ "w") =
      some (.color
        [.val (specRound3 (((16 * hexDigitVal 'a' + hexDigitVal 'a' : ℕ) : ℚ) / 255)),
         .val (specRound3 (((16 * hexDigitVal 'b' + hexDigitVal 'b' : ℕ) : ℚ) / 255)),
         .val (specRound3 (((16 * hexDigitVal 'c' + hexDigitVal 'c' : ℕ) : ℚ) / 255))]
        ⟨['#', 'a', 'b', 'c']⟩) ∧
    0 ≤ specRound3 (((16 * hexDigitVal '3' + hexDigitVal 'b' : ℕ) : ℚ) / 255) ∧
    specRound3 (((16 * hexDigitVal '3' + hexDigitVal 'b' : ℕ) : ℚ) / 255) ≤ 1 := by
  obtain ⟨c6, c3, cb⟩ := claim_C2_color_components
  refine ⟨?_, ?_, ?_⟩
  · exact c6 (fun _ => none) "--color-b: #3b82f6;" "b" '3' 'b' '8' '2' 'f' '6'
      (by decide) (by decide) (by decide) (by decide) (by decide) (by decide) (by decide)
  · exact c3 (fun _ => none) "--color-w: #abc;" "w" 'a' 'b' 'c'
      (by decide) (by decide) (by decide) (by decide)
  · exact cb '3' 'b' (by decide) (by decide)


theorem mapGet_spacingFold_aux (B : ℚ) (k : String) :
    ∀ (ml : List ℚ) (acc : List (String × Token)),
    ((ml.map (fun m => "spacing-" ++ jsNumberString m)).Nodup) →
    mapGet (ml.foldl (fun t m =>
        mapSet t ("spacing-" ++ jsNumberString m)
          (.number (remToPx ((JSNum.val B).mul (.val m))))) acc) k =
      ((ml.find? (fun m => ("spacing-" ++ jsNumberString m) == k)).map
        (fun m => Token.number (remToPx ((JSNum.val B).mul (.val m))))).or (mapGet acc k) := by
  intro ml
  induction ml with
  | nil => intro acc _; simp [Option.or]
  | cons m rest ih =>
    intro acc hnd
    simp only [List.map_cons, List.nodup_cons] at hnd
    rw [List.foldl_cons, ih _ hnd.2]
    by_cases hk : ("spacing-" ++ jsNumberString m) = k
    · subst hk
      rw [mapGet_mapSet_self]
      have hrest : rest.find?
          (fun m0 => ("spacing-" ++ jsNumberString m0) == ("spacing-" ++ jsNumberString m)) =
          none := by
        rw [List.find?_eq_none]
        intro x hx
        simp only [beq_iff_eq]
        intro he
        exact hnd.1 (he ▸ (List.mem_map.mpr ⟨x, hx, rfl⟩))
      rw [hrest]
      have hself : (m :: rest).find?
          (fun m0 => ("spacing-" ++ jsNumberString m0) == ("spacing-" ++ jsNumberString m)) =
          some m := by
        rw [List.find?_cons_of_pos]
        simp
      rw [hself]
      simp [Option.or]
    · rw [mapGet_mapSet_ne _ _ _ _ (Ne.symm hk)]
      have hcons : (m :: rest).find? (fun m0 => ("spacing-" ++ jsNumberString m0) == k) =
          rest.find? (fun m0 => ("spacing-" ++ jsNumberString m0) == k) := by
        rw [List.find?_cons_of_neg]
        simp [hk]
      rw [hcons]

theorem mapGet_generateSpacingTokens (B : ℚ) (k : String)
    (hnd : ((SPACING_MULTIPLIERS.map (fun m => "spacing-" ++ jsNumberString m)).Nodup))
    (hk : k ≠ "spacing-px") :
    mapGet (generateSpacingTokens (.val B)) k =
      ((SPACING_MULTIPLIERS.find? (fun m => ("spacing-" ++ jsNumberString m) == k)).map
        (fun m => Token.number (remToPx ((JSNum.val B).mul (.val m))))).or none := by
  rw [generateSpacingTokens]
  rw [mapGet_mapSet_ne _ _ _ _ hk]
  exact mapGet_spacingFold_aux B k SPACING_MULTIPLIERS [] hnd

theorem find?_spacingKey_self :
    ∀ (ml : List ℚ) (m : ℚ), m ∈ ml →
    ((ml.map (fun m0 => "spacing-" ++ jsNumberString m0)).Nodup) →
    ml.find? (fun m0 =>
      ("spacing-" ++ jsNumberString m0) == ("spacing-" ++ jsNumberString m)) = some m := by
  intro ml
  induction ml with
  | nil => intro m hm; simp at hm
  | cons m1 rest ih =>
    intro m hm hnd
    simp only [List.map_cons, List.nodup_cons] at hnd
    by_cases hk : ("spacing-" ++ jsNumberString m1) = ("spacing-" ++ jsNumberString m)
    · have hm1 : m1 = m := by
        rcases List.mem_cons.mp hm with h | h
        · exact h.symm
        · exact absurd (hk ▸ (List.mem_map.mpr ⟨m, h, rfl⟩)) hnd.1
      subst hm1
      rw [List.find?_cons_of_pos]
      simp
    · have hm2 : m ∈ rest := by
        rcases List.mem_cons.mp hm with h | h
        · exact absurd (congrArg (fun x => "spacing-" ++ jsNumberString x) h.symm) hk
        · exact h
      rw [List.find?_cons_of_neg]
      · exact ih m hm2 hnd.2
      · simp [hk]

unseal Rat.mul Rat.inv Rat.add Rat.sub Rat.ofScientific in
/-- C1: when the single `--spacing` declaration's value parses as `B` rem,
the Spacing category maps `spacing-{m}` to the number B*m*16 for each
multiplier m of the fixed list, plus `spacing-px` mapped to exactly 1;
when the spacing regex finds no rem-shaped base, the Spacing category is
the empty mapping and in particular has no `spacing-px` entry. -/
theorem claim_C1_spacing_scale (f : String → Option String) (css : String) (B : ℚ) :
    (parseSpacingBase css = some (.val B) →
      (∀ m ∈ SPACING_MULTIPLIERS,
        mapGet (convertThemeToFigmaVariables f css).Spacing
          ("spacing-" ++ jsNumberString m) = some (.number (.val (B * m * 16)))) ∧
      mapGet (convertThemeToFigmaVariables f css).Spacing "spacing-px" =
        some (.number (.val 1))) ∧
    (parseSpacingBase css = none →
      (convertThemeToFigmaVariables f css).Spacing = []) := by
  constructor
  · intro h
    rw [convert_Spacing, h]
    constructor
    · intro m hm
      have hk : ("spacing-" ++ jsNumberString m) ≠ "spacing-px" := by
        have hall : ∀ m0 ∈ SPACING_MULTIPLIERS,
            ("spacing-" ++ jsNumberString m0) ≠ "spacing-px" := by decide
        exact hall m hm
      rw [mapGet_generateSpacingTokens B _ (by decide) hk,
        find?_spacingKey_self SPACING_MULTIPLIERS m hm (by decide)]
      rfl
    · show mapGet (generateSpacingTokens (.val B)) "spacing-px" = some (.number (.val 1))
      simp only [generateSpacingTokens]
      rw [mapGet_mapSet_self]
  · intro h
    rw [convert_Spacing, h]

set_option maxRecDepth 10000 in
unseal Rat.mul Rat.inv Rat.add Rat.sub Rat.ofScientific in
/-- C1 witness: base 0.25rem gives spacing-4 = 16 and spacing-px = 1; a
px-valued base leaves Spacing empty. -/
theorem claim_C1_spacing_scale_witness :
    mapGet (convertThemeToFigmaVariables (fun _ => none) "--spacing: 0.25rem;").Spacing
        ("spacing-" ++ jsNumberString 4) = some (.number (.val (1/4 * 4 * 16))) ∧
    mapGet (convertThemeToFigmaVariables (fun _ => none) "--spacing: 0.25rem;").Spacing
        "spacing-px" = some (.number (.val 1)) ∧
    (convertThemeToFigmaVariables (fun _ => none) "--spacing: 10px;").Spacing = [] := by
  have h := claim_C1_spacing_scale (fun _ => none) "--spacing: 0.25rem;" (1/4)
  have h1 := h.1 (by decide)
  exact ⟨h1.1 4 (by decide), h1.2,
    (claim_C1_spacing_scale (fun _ => none) "--spacing: 10px;" 0).2 (by decide)⟩

unseal Rat.mul Rat.inv Rat.add Rat.sub Rat.ofScientific in
/-- C3: for a Leading value of the form calc(E) (E the text up to the
first `)`), a `/` in the trimmed E yields the quotient of the two numeric
operands around the first `/`, else a `*` yields their product, else E is
parsed as a single float; a non-calc value is parsed directly as a float;
the emitted token is the result rounded to 3 decimals, and in particular
`calc(1 / 0.75)` rounds to 1.333 and `calc(1.25 / 0.875)` to 1.429. -/
theorem claim_C3_calc_evaluation :
    (∀ (s : String) (inner : List Char) (a b : ℚ),
      findCalcCapture s.data = some inner →
      (jsTrim ⟨inner⟩).data.contains '/' = true →
      jsParseFloat (jsTrim ⟨splitPart0 '/' (jsTrim (⟨inner⟩ : String)).data⟩) = .val a →
      jsParseFloat (jsTrim ⟨splitPart1 '/' (jsTrim (⟨inner⟩ : String)).data⟩) = .val b →
      b ≠ 0 →
      evaluateCalc s = some (.val (a / b))) ∧
    (∀ (s : String) (inner : List Char) (a b : ℚ),
      findCalcCapture s.data = some inner →
      (jsTrim ⟨inner⟩).data.contains '/' = false →
      (jsTrim ⟨inner⟩).data.contains '*' = true →
      jsParseFloat (jsTrim ⟨splitPart0 '*' (jsTrim (⟨inner⟩ : String)).data⟩) = .val a →
      jsParseFloat (jsTrim ⟨splitPart1 '*' (jsTrim (⟨inner⟩ : String)).data⟩) = .val b →
      evaluateCalc s = some (.val (a * b))) ∧
    (∀ (s : String) (inner : List Char) (q : ℚ),
      findCalcCapture s.data = some inner →
      (jsTrim ⟨inner⟩).data.contains '/' = false →
      (jsTrim ⟨inner⟩).data.contains '*' = false →
      jsParseFloat (jsTrim ⟨inner⟩) = .val q →
      evaluateCalc s = some (.val q)) ∧
    (∀ (s : String) (q : ℚ),
      findCalcCapture s.data = none →
      jsParseFloat s = .val q →
      evaluateCalc s = some (.val q)) ∧
    (∀ (f : String → Option String) (css name value : String),
      mapGet (parseLeadingVariables css) name = some value →
      mapGet (convertThemeToFigmaVariables f css).Leading name =
        (evaluateCalc value).map (fun x => .number (roundTo3 x))) ∧
    (evaluateCalc "calc(1 / 0.75)" = some (.val (4/3)) ∧
      roundTo3 (.val (4/3)) = .val (1333/1000)) ∧
    (evaluateCalc "calc(1.25 / 0.875)" = some (.val (10/7)) ∧
      roundTo3 (.val (10/7)) = .val (1429/1000)) := by
  refine ⟨?_, ?_, ?_, ?_, ?_, ⟨by decide, by decide⟩, ⟨by decide, by decide⟩⟩
  · intro s inner a b hfind hslash hnum hden hb0
    simp only [evaluateCalc]
    rw [hfind]
    simp only [hslash, if_true]
    rw [hnum, hden, JSNum.div_val_val a b hb0]
  · intro s inner a b hfind hslash hstar hnum hden
    simp only [evaluateCalc]
    rw [hfind]
    simp only [hslash, hstar, Bool.false_eq_true, if_false, if_true]
    rw [hnum, hden]
    rfl
  · intro s inner q hfind hslash hstar hq
    simp only [evaluateCalc]
    rw [hfind]
    simp only [hslash, hstar, Bool.false_eq_true, if_false]
    rw [hq]
    simp
  · intro s q hfind hq
    simp only [evaluateCalc]
    rw [hfind, hq]
    simp
  · exact leading_lookup

set_option maxRecDepth 10000 in
unseal Rat.mul Rat.inv Rat.add Rat.sub Rat.ofScientific in
/-- C3 witness: the division branch on `calc(1 / 0.75)` and the Leading
wiring on a concrete line-height declaration. -/
theorem claim_C3_calc_evaluation_witness :
    evaluateCalc "calc(1 / 0.75)" = some (.val (1 / (3/4))) ∧
    mapGet (convertThemeToFigmaVariables (fun _ => none)
        "--text-xs--line-height: calc(1 / 0.75);").Leading "text-xs--line-height" =
      (evaluateCalc "calc(1 / 0.75)").map (fun x => .number (roundTo3 x)) := by
  obtain ⟨hdiv, -, -, -, hlook, -, -⟩ := claim_C3_calc_evaluation
  constructor
  · exact hdiv "calc(1 / 0.75)" "1 / 0.75".data 1 (3/4) (by decide) (by decide)
      (by decide) (by decide) (by decide)
  · exact hlook (fun _ => none) "--text-xs--line-height: calc(1 / 0.75);"
      "text-xs--line-height" "calc(1 / 0.75)" (by decide)

set_option maxRecDepth 10000 in
unseal Rat.mul Rat.inv Rat.add Rat.sub Rat.ofScientific in
/-- C4: evaluating the failing input. `calc(x / 2)` has a non-numeric
operand, yet `evaluateCalc` returns `NaN` (not null) because the `/`
branch has no `isNaN` guard, and the caller's `=== null` check lets the
`NaN` through: a Leading token with value `NaN` is emitted while the
other Leading variable is still converted. -/
theorem claim_C4_nan_leading_token :
    evaluateCalc "calc(x / 2)" = some JSNum.nan ∧
    mapGet (convertThemeToFigmaVariables (fun _ => none)
        "--leading-bad: calc(x / 2); --leading-tight: 1.25;").Leading "leading-bad" =
      some (.number .nan) ∧
    mapGet (convertThemeToFigmaVariables (fun _ => none)
        "--leading-bad: calc(x / 2); --leading-tight: 1.25;").Leading "leading-tight" =
      some (.number (.val (5/4))) := by
  refine ⟨by decide, by decide, by decide⟩

theorem jsParseFloat_digits (ds : List Char) (hne : ds ≠ [])
    (hall : ds.all isDigitChar = true) :
    jsParseFloat ⟨ds⟩ = .val (digitsToNat ds) := by
  obtain ⟨c, rest, rfl⟩ : ∃ c rest, ds = c :: rest := by
    cases ds with
    | nil => exact absurd rfl hne
    | cons c rest => exact ⟨c, rest, rfl⟩
  have hcd : isDigitChar c = true := by
    simp only [List.all_cons, Bool.and_eq_true] at hall
    exact hall.1
  have hw : isJsWhitespace c = false := isDigitChar_not_ws c hcd
  have hsm : c ≠ '-' := ne_of_true_of_false isDigitChar c '-' hcd (by decide)
  have hsp : c ≠ '+' := ne_of_true_of_false isDigitChar c '+' hcd (by decide)
  have hI : c ≠ 'I' := ne_of_true_of_false isDigitChar c 'I' hcd (by decide)
  have e1 : List.dropWhile isJsWhitespace (c :: rest) = c :: rest := by
    rw [List.dropWhile_cons, hw]
    simp
  have e2 : readSign (c :: rest) = (false, c :: rest) := readSign_cons c rest hsm hsp
  have e3 : (['I', 'n', 'f', 'i', 'n', 'i', 't', 'y'].isPrefixOf (c :: rest)) = false :=
    isPrefixOf_cons_false 'I' _ c rest (Ne.symm hI)
  have e4 : List.takeWhile isDigitChar (c :: rest) = c :: rest :=
    takeWhile_all_eq_self _ _ hall
  simp only [jsParseFloat, e1, e2, e3, e4, Bool.false_eq_true, if_false,
    List.drop_length, List.isEmpty_cons, Bool.false_and]
  simp [digitsToNat]

theorem jsParseFloat_digits_dot (intDs fracDs : List Char) (hne : intDs ≠ [])
    (hint : intDs.all isDigitChar = true) (hfrac : fracDs.all isDigitChar = true) :
    jsParseFloat ⟨intDs ++ '.' :: fracDs⟩ =
      .val (digitsToNat intDs + digitsToNat fracDs / 10 ^ fracDs.length) := by
  obtain ⟨c, rest, rfl⟩ : ∃ c rest, intDs = c :: rest := by
    cases intDs with
    | nil => exact absurd rfl hne
    | cons c rest => exact ⟨c, rest, rfl⟩
  have hcd : isDigitChar c = true := by
    simp only [List.all_cons, Bool.and_eq_true] at hint
    exact hint.1
  have hw : isJsWhitespace c = false := isDigitChar_not_ws c hcd
  have hsm : c ≠ '-' := ne_of_true_of_false isDigitChar c '-' hcd (by decide)
  have hsp : c ≠ '+' := ne_of_true_of_false isDigitChar c '+' hcd (by decide)
  have hI : c ≠ 'I' := ne_of_true_of_false isDigitChar c 'I' hcd (by decide)
  have e1 : List.dropWhile isJsWhitespace ((c :: rest) ++ '.' :: fracDs) =
      (c :: rest) ++ '.' :: fracDs := by
    rw [List.cons_append, List.dropWhile_cons, hw]
    simp
  have e2 : readSign ((c :: rest) ++ '.' :: fracDs) = (false, (c :: rest) ++ '.' :: fracDs) := by
    rw [List.cons_append]
    exact readSign_cons c _ hsm hsp
  have e3 : (['I', 'n', 'f', 'i', 'n', 'i', 't', 'y'].isPrefixOf
      ((c :: rest) ++ '.' :: fracDs)) = false := by
    rw [List.cons_append]
    exact isPrefixOf_cons_false 'I' _ c _ (Ne.symm hI)
  have e4 : List.takeWhile isDigitChar ((c :: rest) ++ '.' :: fracDs) = c :: rest :=
    takeWhile_append_cons isDigitChar (c :: rest) '.' fracDs hint (by decide)
  have e5 : ((c :: rest) ++ '.' :: fracDs).drop (c :: rest).length = '.' :: fracDs :=
    List.drop_left (c :: rest) ('.' :: fracDs)
  have e6 : List.takeWhile isDigitChar fracDs = fracDs :=
    takeWhile_all_eq_self _ _ hfrac
  simp only [jsParseFloat, e1, e2, e3, Bool.false_eq_true, if_false, e4, e5, e6,
    List.drop_length, List.isEmpty_cons, Bool.false_and]
  simp

theorem parseRemValue_eq (pre : List Char) (hne : pre ≠ [])
    (hall : pre.all (fun c => isDigitChar c || c == '.') = true) :
    parseRemValue ⟨pre ++ ['r', 'e', 'm']⟩ = some (jsParseFloat ⟨pre⟩) := by
  simp only [parseRemValue]
  have hlen : (pre ++ ['r', 'e', 'm']).length - 3 = pre.length := by simp
  rw [hlen, List.take_left, List.drop_left]
  rw [if_pos ⟨rfl, hne, hall⟩]

/-- C5 (amended): for the Radius, Container, Breakpoint and Text
categories, the token emitted for a captured entry (name, value) is
exactly `(parseRemValue value).map (×16)`: present when the value matches
`^([\d.]+)rem$` (with value parseFloat(capture)*16, NaN included for
digitless captures such as ".rem"), and omitted exactly when the regex
fails; a value of the form `<number>rem` yields number*16. The original
claim's "any other form is omitted" is refuted by `1.2.3rem`, which the
regex accepts and parseFloat reads as 1.2. -/
theorem claim_C5_rem_categories :
    (∀ (f : String → Option String) (css name value : String),
      mapGet (parseRadiusVariables css) name = some value →
      mapGet (convertThemeToFigmaVariables f css).Radius ("radius-" ++ name) =
        (parseRemValue value).map (fun r => .number (remToPx r))) ∧
    (∀ (f : String → Option String) (css name value : String),
      mapGet (parseContainerVariables css) name = some value →
      mapGet (convertThemeToFigmaVariables f css).Container ("container-" ++ name) =
        (parseRemValue value).map (fun r => .number (remToPx r))) ∧
    (∀ (f : String → Option String) (css name value : String),
      mapGet (parseBreakpointVariables css) name = some value →
      mapGet (convertThemeToFigmaVariables f css).Breakpoint ("breakpoint-" ++ name) =
        (parseRemValue value).map (fun r => .number (remToPx r))) ∧
    (∀ (f : String → Option String) (css name value : String),
      mapGet (parseTextVariables css) name = some value →
      mapGet (convertThemeToFigmaVariables f css).Text ("text-" ++ name) =
        (parseRemValue value).map (fun r => .number (remToPx r))) ∧
    (∀ ds : List Char, ds ≠ [] → ds.all isDigitChar = true →
      parseRemValue ⟨ds ++ ['r', 'e', 'm']⟩ = some (.val (digitsToNat ds)) ∧
      (parseRemValue ⟨ds ++ ['r', 'e', 'm']⟩).map (fun r => Token.number (remToPx r)) =
        some (.number (.val ((digitsToNat ds : ℚ) * 16)))) ∧
    (∀ intDs fracDs : List Char, intDs ≠ [] → intDs.all isDigitChar = true →
      fracDs.all isDigitChar = true →
      parseRemValue ⟨intDs ++ '.' :: fracDs ++ ['r', 'e', 'm']⟩ =
        some (.val (digitsToNat intDs + digitsToNat fracDs / 10 ^ fracDs.length))) := by
  refine ⟨radius_lookup, container_lookup, breakpoint_lookup, text_lookup, ?_, ?_⟩
  · intro ds hne hall
    have h1 : parseRemValue ⟨ds ++ ['r', 'e', 'm']⟩ = some (.val (digitsToNat ds)) := by
      rw [parseRemValue_eq ds hne ?_, jsParseFloat_digits ds hne hall]
      refine List.all_eq_true.mpr ?_
      intro x hx
      simp [List.all_eq_true.mp hall x hx]
    exact ⟨h1, by rw [h1]; rfl⟩
  · intro intDs fracDs hne hint hfrac
    have hpre : (intDs ++ '.' :: fracDs).all (fun c => isDigitChar c || c == '.') = true := by
      refine List.all_eq_true.mpr ?_
      intro x hx
      rcases List.mem_append.mp hx with h | h
      · simp [List.all_eq_true.mp hint x h]
      · rcases List.mem_cons.mp h with h | h
        · simp [h]
        · simp [List.all_eq_true.mp hfrac x h]
    have hne2 : intDs ++ '.' :: fracDs ≠ [] := by
      cases intDs <;> simp
    rw [show intDs ++ '.' :: fracDs ++ ['r', 'e', 'm'] =
      (intDs ++ '.' :: fracDs) ++ ['r', 'e', 'm'] by simp]
    rw [parseRemValue_eq _ hne2 hpre, jsParseFloat_digits_dot intDs fracDs hne hint hfrac]

set_option maxRecDepth 10000 in
unseal Rat.mul Rat.inv Rat.add Rat.sub Rat.ofScientific in
/-- C5 counterexample: `1.2.3rem` is not a bare rem number, yet the
radius entry is not omitted: the regex `^([\d.]+)rem$` accepts it and
`parseFloat("1.2.3")` reads 1.2, so `radius-a` is emitted with value
19.2 instead of being skipped. -/
theorem claim_C5_rem_categories_counterexample :
    isBareRemNumber "1.2.3rem" = false ∧
    mapGet (convertThemeToFigmaVariables (fun _ => none)
        "--radius-a: 1.2.3rem;").Radius "radius-a" =
      some (.number (.val (96/5))) := by
  refine ⟨by decide, by decide⟩

set_option maxRecDepth 10000 in
unseal Rat.mul Rat.inv Rat.add Rat.sub Rat.ofScientific in
/-- C5 witness: a well-formed radius (0.25rem → 4) wired through the
conversion, a skipped px-valued radius, and the `<number>rem` semantics
at the digit string "2". -/
theorem claim_C5_rem_categories_witness :
    mapGet (convertThemeToFigmaVariables (fun _ => none)
        "--radius-sm: 0.25rem;\n--radius-bad: 10px;").Radius ("radius-" ++ "sm") =
      (parseRemValue "0.25rem").map (fun r => .number (remToPx r)) ∧
    mapGet (convertThemeToFigmaVariables (fun _ => none)
        "--radius-sm: 0.25rem;\n--radius-bad: 10px;").Radius ("radius-" ++ "bad") =
      (parseRemValue "10px").map (fun r => .number (remToPx r)) ∧
    parseRemValue ⟨['2'] ++ ['r', 'e', 'm']⟩ = some (.val (digitsToNat ['2'])) := by
  obtain ⟨hrad, -, -, -, hint, -⟩ := claim_C5_rem_categories
  refine ⟨?_, ?_, ?_⟩
  · exact hrad (fun _ => none) "--radius-sm: 0.25rem;\n--radius-bad: 10px;" "sm"
      "0.25rem" (by decide)
  · exact hrad (fun _ => none) "--radius-sm: 0.25rem;\n--radius-bad: 10px;" "bad"
      "10px" (by decide)
  · exact (hint ['2'] (by decide) (by decide)).1

/-- C6: the output always has exactly the ten category keys in order, and
a category whose parse finds nothing is still present, as an empty
mapping. -/
theorem claim_C6_ten_categories (f : String → Option String) (css : String) :
    ((convertThemeToFigmaVariables f css).categoriesList.map Prod.fst =
      ["Color", "Spacing", "Radius", "Shadow", "Container", "Breakpoint", "Text",
       "Font Weight", "Tracking", "Leading"]) ∧
    (parseColorVariables css = [] → (convertThemeToFigmaVariables f css).Color = []) ∧
    (parseSpacingBase css = none → (convertThemeToFigmaVariables f css).Spacing = []) ∧
    (parseRadiusVariables css = [] → (convertThemeToFigmaVariables f css).Radius = []) ∧
    (parseShadowVariables css = [] → (convertThemeToFigmaVariables f css).Shadow = []) ∧
    (parseContainerVariables css = [] → (convertThemeToFigmaVariables f css).Container = []) ∧
    (parseBreakpointVariables css = [] → (convertThemeToFigmaVariables f css).Breakpoint = []) ∧
    (parseTextVariables css = [] → (convertThemeToFigmaVariables f css).Text = []) ∧
    (parseFontWeightVariables css = [] → (convertThemeToFigmaVariables f css).FontWeight = []) ∧
    (parseTrackingVariables css = [] → (convertThemeToFigmaVariables f css).Tracking = []) ∧
    (parseLeadingVariables css = [] → (convertThemeToFigmaVariables f css).Leading = []) := by
  refine ⟨rfl, ?_, ?_, ?_, ?_, ?_, ?_, ?_, ?_, ?_, ?_⟩
  · intro h; rw [convert_Color, h]; rfl
  · intro h; rw [convert_Spacing, h]
  · intro h; rw [convert_Radius, h]; rfl
  · intro h; rw [convert_Shadow, h]; rfl
  · intro h; rw [convert_Container, h]; rfl
  · intro h; rw [convert_Breakpoint, h]; rfl
  · intro h; rw [convert_Text, h]; rfl
  · intro h; rw [convert_FontWeight, h]; rfl
  · intro h; rw [convert_Tracking, h]; rfl
  · intro h; rw [convert_Leading, h]; rfl

/-- C6 witness: on the empty input every category key is present and
every category is empty. -/
theorem claim_C6_ten_categories_witness :
    ((convertThemeToFigmaVariables (fun _ => none) "").categoriesList.map Prod.fst =
      ["Color", "Spacing", "Radius", "Shadow", "Container", "Breakpoint", "Text",
       "Font Weight", "Tracking", "Leading"]) ∧
    (convertThemeToFigmaVariables (fun _ => none) "").Color = [] ∧
    (convertThemeToFigmaVariables (fun _ => none) "").Spacing = [] ∧
    (convertThemeToFigmaVariables (fun _ => none) "").Leading = [] := by
  have h := claim_C6_ten_categories (fun _ => none) ""
  exact ⟨h.1, h.2.1 (by decide), h.2.2.1 (by decide), h.2.2.2.2.2.2.2.2.2.2 (by decide)⟩

/-- C7: for every category and every name, the parsed map holds the value
of the last matching declaration in text order (the getLast? of that
category's matches filtered by the name) — shown for Color, Radius,
Shadow, Container, Breakpoint, Text, Font Weight, Tracking and both
Leading passes — and the emitted token for that name is built from
exactly that (last) value, for every category. -/
theorem claim_C7_last_match_wins (css name : String) :
    (mapGet (parseColorVariables css) name =
      ((colorMatches css).filter (fun p => p.1 == name)).getLast?.map Prod.snd) ∧
    (mapGet (parseRadiusVariables css) name =
      ((radiusMatches css).filter (fun p => p.1 == name)).getLast?.map Prod.snd) ∧
    (mapGet (parseShadowVariables css) name =
      ((shadowMatches css).filter (fun p => p.1 == name)).getLast?.map Prod.snd) ∧
    (mapGet (parseContainerVariables css) name =
      ((containerMatches css).filter (fun p => p.1 == name)).getLast?.map Prod.snd) ∧
    (mapGet (parseBreakpointVariables css) name =
      ((breakpointMatches css).filter (fun p => p.1 == name)).getLast?.map Prod.snd) ∧
    (mapGet (parseTextVariables css) name =
      if listContainsSub "--line-height".data name.data then none
      else ((textMatches css).filter (fun p => p.1 == name)).getLast?.map Prod.snd) ∧
    (mapGet (parseFontWeightVariables css) name =
      ((fontWeightMatches css).filter (fun p => p.1 == name)).getLast?.map Prod.snd) ∧
    (mapGet (parseTrackingVariables css) name =
      ((trackingMatches css).filter (fun p => p.1 == name)).getLast?.map Prod.snd) ∧
    (mapGet (parseLeadingVariables css) ("leading-" ++ name) =
      ((leadingMatches css).filter (fun p => p.1 == name)).getLast?.map Prod.snd) ∧
    (mapGet (parseLeadingVariables css) ("text-" ++ name ++ "--line-height") =
      ((textLineHeightMatches css).filter (fun p => p.1 == name)).getLast?.map Prod.snd) ∧
    (∀ f : String → Option String,
      mapGet (convertThemeToFigmaVariables f css).Color ("color-" ++ name) =
        (mapGet (parseColorVariables css) name).bind (colorConv f name)) ∧
    (∀ value : String, ∀ f : String → Option String,
      (mapGet (parseRadiusVariables css) name = some value →
        mapGet (convertThemeToFigmaVariables f css).Radius ("radius-" ++ name) =
          (parseRemValue value).map (fun r => .number (remToPx r))) ∧
      (mapGet (parseShadowVariables css) name = some value →
        mapGet (convertThemeToFigmaVariables f css).Shadow name = some (.str value)) ∧
      (mapGet (parseContainerVariables css) name = some value →
        mapGet (convertThemeToFigmaVariables f css).Container ("container-" ++ name) =
          (parseRemValue value).map (fun r => .number (remToPx r))) ∧
      (mapGet (parseBreakpointVariables css) name = some value →
        mapGet (convertThemeToFigmaVariables f css).Breakpoint ("breakpoint-" ++ name) =
          (parseRemValue value).map (fun r => .number (remToPx r))) ∧
      (mapGet (parseTextVariables css) name = some value →
        mapGet (convertThemeToFigmaVariables f css).Text ("text-" ++ name) =
          (parseRemValue value).map (fun r => .number (remToPx r))) ∧
      (mapGet (parseFontWeightVariables css) name = some value →
        mapGet (convertThemeToFigmaVariables f css).FontWeight ("font-weight-" ++ name) =
          (if jsParseInt10 value = .nan then none
           else some (.number (jsParseInt10 value)))) ∧
      (mapGet (parseTrackingVariables css) name = some value →
        mapGet (convertThemeToFigmaVariables f css).Tracking ("tracking-" ++ name) =
          some (.str value)) ∧
      (∀ key : String, mapGet (parseLeadingVariables css) key = some value →
        mapGet (convertThemeToFigmaVariables f css).Leading key =
          (evaluateCalc value).map (fun x => .number (roundTo3 x)))) := by
  refine ⟨mapGet_buildMap _ _, mapGet_buildMap _ _, mapGet_buildMap _ _,
    mapGet_buildMap _ _, mapGet_buildMap _ _, mapGet_parseTextVariables css name,
    mapGet_buildMap _ _, mapGet_buildMap _ _, mapGet_parseLeading_leading css name,
    mapGet_parseLeading_textlh css name, ?_, ?_⟩
  · intro f
    rw [convert_Color]
    exact mapGet_recordFold (fun n => "color-" ++ n) (colorConv f) name
      (fun a b hab => string_append_left_cancel _ _ _ hab)
      (parseColorVariables css) (nodupKeys_parseColorVariables css)
  · intro value f
    exact ⟨fun h => radius_lookup f css name value h,
      fun h => shadow_lookup f css name value h,
      fun h => container_lookup f css name value h,
      fun h => breakpoint_lookup f css name value h,
      fun h => text_lookup f css name value h,
      fun h => fontWeight_lookup f css name value h,
      fun h => tracking_lookup f css name value h,
      fun key h => leading_lookup f css key value h⟩

set_option maxRecDepth 10000 in
/-- C7 witness: in every category a duplicated name keeps only the last
declared value, and the emitted token is built from that value. -/
theorem claim_C7_last_match_wins_witness :
    mapGet (parseColorVariables "--color-x: #111111; --color-x: #222222;") "x" =
      some "#222222" ∧
    mapGet (parseRadiusVariables "--radius-r: 1rem; --radius-r: 2rem;") "r" =
      some "2rem" ∧
    mapGet (parseShadowVariables "--shadow-sm: 0 1px red; --shadow-sm: 0 2px blue;")
      "shadow-sm" = some "0 2px blue" ∧
    mapGet (parseContainerVariables "--container-c: 1rem; --container-c: 2rem;") "c" =
      some "2rem" ∧
    mapGet (parseBreakpointVariables "--breakpoint-b: 1rem; --breakpoint-b: 2rem;") "b" =
      some "2rem" ∧
    mapGet (parseTextVariables "--text-t: 1rem; --text-t: 2rem;") "t" = some "2rem" ∧
    mapGet (parseFontWeightVariables "--font-weight-bold: 600; --font-weight-bold: 700;")
      "bold" = some "700" ∧
    mapGet (parseTrackingVariables "--tracking-wide: 0.1em; --tracking-wide: 0.2em;")
      "wide" = some "0.2em" ∧
    mapGet (parseLeadingVariables "--leading-tight: 1.25; --leading-tight: 1.5;")
      ("leading-" ++ "tight") = some "1.5" ∧
    mapGet (parseLeadingVariables
        "--text-sm--line-height: calc(4 / 2); --text-sm--line-height: calc(6 / 2);")
      ("text-" ++ "sm" ++ "--line-height") = some "calc(6 / 2)" ∧
    mapGet (convertThemeToFigmaVariables (fun _ => none)
        "--radius-r: 1rem; --radius-r: 2rem;").Radius ("radius-" ++ "r") =
      (parseRemValue "2rem").map (fun r => .number (remToPx r)) ∧
    mapGet (convertThemeToFigmaVariables (fun _ => none)
        "--shadow-sm: 0 1px red; --shadow-sm: 0 2px blue;").Shadow "shadow-sm" =
      some (.str "0 2px blue") ∧
    mapGet (convertThemeToFigmaVariables (fun _ => none)
        "--tracking-wide: 0.1em; --tracking-wide: 0.2em;").Tracking
      ("tracking-" ++ "wide") = some (.str "0.2em") ∧
    mapGet (convertThemeToFigmaVariables (fun _ => none)
        "--leading-tight: 1.25; --leading-tight: 1.5;").Leading ("leading-" ++ "tight") =
      (evaluateCalc "1.5").map (fun x => .number (roundTo3 x)) ∧
    mapGet (convertThemeToFigmaVariables (fun _ => none)
        "--color-x: #111111; --color-x: #222222;").Color ("color-" ++ "x") =
      (mapGet (parseColorVariables "--color-x: #111111; --color-x: #222222;") "x").bind
        (colorConv (fun _ => none) "x") := by
  refine ⟨?_, ?_, ?_, ?_, ?_, ?_, ?_, ?_, ?_, ?_, ?_, ?_, ?_, ?_, ?_⟩
  · rw [(claim_C7_last_match_wins "--color-x: #111111; --color-x: #222222;" "x").1]
    decide
  · rw [(claim_C7_last_match_wins "--radius-r: 1rem; --radius-r: 2rem;" "r").2.1]
    decide
  · rw [(claim_C7_last_match_wins "--shadow-sm: 0 1px red; --shadow-sm: 0 2px blue;"
      "shadow-sm").2.2.1]
    decide
  · rw [(claim_C7_last_match_wins "--container-c: 1rem; --container-c: 2rem;"
      "c").2.2.2.1]
    decide
  · rw [(claim_C7_last_match_wins "--breakpoint-b: 1rem; --breakpoint-b: 2rem;"
      "b").2.2.2.2.1]
    decide
  · rw [(claim_C7_last_match_wins "--text-t: 1rem; --text-t: 2rem;" "t").2.2.2.2.2.1]
    decide
  · rw [(claim_C7_last_match_wins "--font-weight-bold: 600; --font-weight-bold: 700;"
      "bold").2.2.2.2.2.2.1]
    decide
  · rw [(claim_C7_last_match_wins "--tracking-wide: 0.1em; --tracking-wide: 0.2em;"
      "wide").2.2.2.2.2.2.2.1]
    decide
  · rw [(claim_C7_last_match_wins "--leading-tight: 1.25; --leading-tight: 1.5;"
      "tight").2.2.2.2.2.2.2.2.1]
    decide
  · rw [(claim_C7_last_match_wins
      "--text-sm--line-height: calc(4 / 2); --text-sm--line-height: calc(6 / 2);"
      "sm").2.2.2.2.2.2.2.2.2.1]
    decide
  · exact ((claim_C7_last_match_wins "--radius-r: 1rem; --radius-r: 2rem;"
      "r").2.2.2.2.2.2.2.2.2.2.2 "2rem" (fun _ => none)).1 (by decide)
  · exact ((claim_C7_last_match_wins "--shadow-sm: 0 1px red; --shadow-sm: 0 2px blue;"
      "shadow-sm").2.2.2.2.2.2.2.2.2.2.2 "0 2px blue" (fun _ => none)).2.1 (by decide)
  · exact ((claim_C7_last_match_wins "--tracking-wide: 0.1em; --tracking-wide: 0.2em;"
      "wide").2.2.2.2.2.2.2.2.2.2.2 "0.2em" (fun _ => none)).2.2.2.2.2.2.1 (by decide)
  · exact ((claim_C7_last_match_wins "--leading-tight: 1.25; --leading-tight: 1.5;"
      "tight").2.2.2.2.2.2.2.2.2.2.2 "1.5" (fun _ => none)).2.2.2.2.2.2.2
      ("leading-" ++ "tight") (by decide)
  · exact (claim_C7_last_match_wins "--color-x: #111111; --color-x: #222222;"
      "x").2.2.2.2.2.2.2.2.2.2.1 (fun _ => none)

/-- C8: Shadow and Tracking tokens are string tokens carrying the
captured CSS value verbatim (the stored value is already trimmed, and no
conversion is applied), under keys `family-size` and `tracking-name`. -/
theorem claim_C8_string_passthrough (f : String → Option String)
    (css name value : String) :
    (mapGet (parseShadowVariables css) name = some value →
      mapGet (convertThemeToFigmaVariables f css).Shadow name = some (.str value) ∧
      jsTrim value = value) ∧
    (mapGet (parseTrackingVariables css) name = some value →
      mapGet (convertThemeToFigmaVariables f css).Tracking ("tracking-" ++ name) =
        some (.str value) ∧ jsTrim value = value) ∧
    Token.ttype (.str value) = "string" := by
  refine ⟨?_, ?_, rfl⟩
  · intro h
    refine ⟨shadow_lookup f css name value h, ?_⟩
    obtain ⟨q, hq, hqv⟩ := mapGet_buildMap_mem (shadowMatches css) name value h
    rw [← hqv]
    exact forall_mem_scanAll matchShadowDecl (fun a => jsTrim a.2 = a.2)
      (fun s a r hs => matchShadowDecl_trimmed s a r hs) _ _ q hq
  · intro h
    refine ⟨tracking_lookup f css name value h, ?_⟩
    obtain ⟨q, hq, hqv⟩ := mapGet_buildMap_mem
      (scanMatches (matchLitDecl "--tracking-".data isLowerChar) css) name value h
    rw [← hqv]
    exact forall_mem_scanAll (matchLitDecl "--tracking-".data isLowerChar)
      (fun a => jsTrim a.2 = a.2)
      (fun s a r hs => matchLitDecl_trimmed _ _ s a r hs) _ _ q hq

set_option maxRecDepth 10000 in
/-- C8 witness: a concrete shadow and tracking declaration pass through
verbatim. -/
theorem claim_C8_string_passthrough_witness :
    mapGet (convertThemeToFigmaVariables (fun _ => none)
        "--shadow-xs: 0 1px 2px 0 rgb(0 0 0 / 0.05);").Shadow "shadow-xs" =
      some (.str "0 1px 2px 0 rgb(0 0 0 / 0.05)") ∧
    jsTrim "0 1px 2px 0 rgb(0 0 0 / 0.05)" = "0 1px 2px 0 rgb(0 0 0 / 0.05)" ∧
    mapGet (convertThemeToFigmaVariables (fun _ => none)
        "--tracking-tight: -0.025em;").Tracking ("tracking-" ++ "tight") =
      some (.str "-0.025em") ∧
    Token.ttype (.str "-0.025em") = "string" := by
  have h1 := (claim_C8_string_passthrough (fun _ => none)
    "--shadow-xs: 0 1px 2px 0 rgb(0 0 0 / 0.05);" "shadow-xs"
    "0 1px 2px 0 rgb(0 0 0 / 0.05)").1 (by decide)
  have h2 := claim_C8_string_passthrough (fun _ => none)
    "--tracking-tight: -0.025em;" "tight" "-0.025em"
  exact ⟨h1.1, h1.2, (h2.2.1 (by decide)).1, h2.2.2⟩

/-- C9: the conversion is a pure function of the input text: runs on
byte-for-byte identical inputs produce identical token documents and
identical serialized JSON. -/
theorem claim_C9_deterministic (f : String → Option String) (css1 css2 : String)
    (h : css1 = css2) :
    convertThemeToFigmaVariables f css1 = convertThemeToFigmaVariables f css2 ∧
    serializeTokens (convertThemeToFigmaVariables f css1) =
      serializeTokens (convertThemeToFigmaVariables f css2) := by
  subst h
  exact ⟨rfl, rfl⟩

/-- C9 witness: two runs on the same concrete input agree. -/
theorem claim_C9_deterministic_witness :
    convertThemeToFigmaVariables (fun _ => none) "--spacing: 0.25rem;" =
      convertThemeToFigmaVariables (fun _ => none) "--spacing: 0.25rem;" ∧
    serializeTokens (convertThemeToFigmaVariables (fun _ => none) "--spacing: 0.25rem;") =
      serializeTokens (convertThemeToFigmaVariables (fun _ => none) "--spacing: 0.25rem;") :=
  claim_C9_deterministic (fun _ => none) "--spacing: 0.25rem;" "--spacing: 0.25rem;" rfl

unseal Rat.mul Rat.inv Rat.add Rat.sub in
/-- C10 (amended): every color value beginning with `#` is accepted with
no validation: the token's hex field is the raw value verbatim and the
components come from `hexToComponents`, which reads only the value's
first seven characters; a 2-character slice that is empty or starts with
a non-hex character parses to NaN (so, for example, `#ab` gets NaN
components), but not every short or invalid value does: `parseInt`
prefix-parsing gives `#12345` (6 characters) all-numeric components. -/
theorem claim_C10_hash_no_validation :
    (∀ (f : String → Option String) (css name value : String),
      mapGet (parseColorVariables css) name = some value →
      value.data.head? = some '#' →
      mapGet (convertThemeToFigmaVariables f css).Color ("color-" ++ name) =
        some (.color (hexToComponents value) value)) ∧
    (∀ value : String, hexToComponents value = hexToComponents ⟨value.data.take 7⟩) ∧
    (hexToComponents "#ab" = [.val (671/1000), .nan, .nan]) ∧
    (hexToComponents "#12345" = [.val (71/1000), .val (51/250), .val (1/50)]) := by
  refine ⟨?_, ?_, ?_, ?_⟩
  · intro f css name value h hhead
    refine color_lookup f css name value h ?_
    cases hv : value.data with
    | nil => rw [hv] at hhead; simp at hhead
    | cons c t =>
      rw [hv] at hhead
      simp only [List.head?_cons, Option.some.injEq] at hhead
      subst hhead
      simp [List.isPrefixOf]
  · intro value
    by_cases h7 : value.data.length ≤ 7
    · rw [List.take_of_length_le h7]
    · push_neg at h7
      have hlen4 : ¬ (value.data.length = 4) := by omega
      have hlen7 : (⟨value.data.take 7⟩ : String).data.length = 7 := by
        simp only [List.length_take]
        omega
      have hlen74 : ¬ ((⟨value.data.take 7⟩ : String).data.length = 4) := by
        rw [hlen7]
        omega
      simp only [hexToComponents, if_neg hlen4, if_neg hlen74]
      have hs : ∀ i j : ℕ, i + (j - i) ≤ 7 →
          jsSlice value i j = jsSlice ⟨value.data.take 7⟩ i j := by
        intro i j hij
        simp only [jsSlice]
        congr 1
        rw [List.drop_take]
        rw [List.take_take]
        congr 1
        omega
      rw [hs 1 3 (by norm_num), hs 3 5 (by norm_num), hs 5 7 (by norm_num)]
  · decide
  · decide

set_option maxRecDepth 10000 in
unseal Rat.mul Rat.inv Rat.add Rat.sub in
/-- C10 counterexample: `#12345` has fewer than seven characters and is
not 4-character shorthand, yet its Color token has no NaN component: all
three parsed slices (`12`, `34`, `5`) are numeric. -/
theorem claim_C10_hash_no_validation_counterexample :
    ("#12345".data.length < 7 ∧ "#12345".data.length ≠ 4) ∧
    mapGet (convertThemeToFigmaVariables (fun _ => none)
        "--color-x: #12345;").Color "color-x" =
      some (.color [.val (71/1000), .val (51/250), .val (1/50)] "#12345") ∧
    JSNum.nan ∉ [JSNum.val (71/1000), JSNum.val (51/250), JSNum.val (1/50)] := by
  refine ⟨by decide, by decide, by decide⟩

set_option maxRecDepth 10000 in
unseal Rat.mul Rat.inv Rat.add Rat.sub in
/-- C10 witness: the short value `#ab` is accepted verbatim (hex field
kept, token emitted, NaN components), and the components only depend on
the first seven characters. -/
theorem claim_C10_hash_no_validation_witness :
    mapGet (convertThemeToFigmaVariables (fun _ => none)
        "--color-y: #ab;").Color ("color-" ++ "y") =
      some (.color (hexToComponents "#ab") "#ab") ∧
    hexToComponents "#ab" = [.val (671/1000), .nan, .nan] ∧
    hexToComponents "#123456789" = hexToComponents ⟨"#123456789".data.take 7⟩ := by
  obtain ⟨hacc, htake, hab, -⟩ := claim_C10_hash_no_validation
  exact ⟨hacc (fun _ => none) "--color-y: #ab;" "y" "#ab" (by decide) (by decide),
    hab, htake "#123456789"⟩
